import Mathlib

/-!
# Verification of the OMNIC binary reader (`read_omnic.py`)

A shallow embedding of `spectrochempy_omnic/reader/read_omnic.py`.
Files are byte lists (`List Nat`, each element < 256).  Binary reads,
text decoding, header decoding and the three format decoders
(`_read_spg`, `_read_spa`, `_read_srs`, plus the `ddr/hdr/sdr`
wrappers) are translated from the Python source.  Python exceptions
become `Except` errors; the non-terminating loop that `_readbtext`
can enter at EOF is mapped to the distinguished outcome `diverge`.
IEEE-754 float32 values are decoded exactly into `F32`
(`nan` / signed infinity / a rational for finite values), so that the
`np.ptp(...) != 0` consistency checks of `_read_spg` are modelled
exactly.  The process-wide class attribute `OMNICReader._history`
(a mutable class-level list shared by all instances that never assign
a list to `history`) is threaded explicitly as a `shared` argument and
returned in each decode result.
-/

set_option maxRecDepth 8192

/-- Outcomes of a decode that Python would signal by raising (or, for
`diverge`, by never terminating).  `inconsistentDataset`,
`malformedRecord` and `unsupportedFormat` tag the corresponding
`OMNICReaderError` raise sites; `pythonError` stands for an exception
coming from the runtime itself (NameError / IndexError / ValueError /
KeyError / broadcast errors). -/
inductive OmnicError where
  | inconsistentDataset (msg : String)
  | malformedRecord (msg : String)
  | unsupportedFormat (msg : String)
  | pythonError
  | diverge
deriving DecidableEq, Repr

/-- Exact value of an IEEE-754 binary32 datum: `nan`, a signed
infinity, or a finite rational (`+0.0` and `-0.0` are both `fin 0`,
matching IEEE equality). -/
inductive F32 where
  | nan
  | inf (neg : Bool)
  | fin (q : ℚ)
deriving DecidableEq, Repr

deriving instance DecidableEq for Except

/-- Decode a 32-bit pattern as an IEEE-754 binary32 value: the value
is `±mant·2^(ep-150)`, built directly with `mkRat` so that it reduces
by kernel arithmetic. -/
def decodeF32 (bits : Nat) : F32 :=
  let s : Nat := bits / 2 ^ 31 % 2
  let e : Nat := bits / 2 ^ 23 % 256
  let m : Nat := bits % 2 ^ 23
  if e = 255 then
    if m = 0 then .inf (s = 1) else .nan
  else
    let mant : Nat := if e = 0 then m else 2 ^ 23 + m
    let ep : Nat := if e = 0 then 1 else e
    let num : Int := (if s = 1 then -1 else 1) * (mant * 2 ^ (ep - 150) : Nat)
    .fin (mkRat num (2 ^ (150 - ep)))

/-- Is this bit pattern a NaN (`np.isnan` on one float32 datum)? -/
def isNanBits (bits : Nat) : Bool :=
  decodeF32 bits = F32.nan

/-- IEEE equality of two float32 values (`nan` is equal to nothing,
including itself; the two zeros were already collapsed by
`decodeF32`). -/
def f32EqvB : F32 → F32 → Bool
  | .fin a, .fin b => a == b
  | .inf a, .inf b => a == b
  | _, _ => false

/-- Binary maximum with NaN propagation (`np.max` reduction step). -/
def maxF : F32 → F32 → F32
  | .nan, _ => .nan
  | _, .nan => .nan
  | .inf false, _ => .inf false
  | _, .inf false => .inf false
  | .inf true, x => x
  | x, .inf true => x
  | .fin a, .fin b => .fin (max a b)

/-- Binary minimum with NaN propagation (`np.min` reduction step). -/
def minF : F32 → F32 → F32
  | .nan, _ => .nan
  | _, .nan => .nan
  | .inf true, _ => .inf true
  | _, .inf true => .inf true
  | .inf false, x => x
  | x, .inf false => x
  | .fin a, .fin b => .fin (min a b)

/-- `np.max` of a list of float32 values (the lists it is applied to
are never empty in the decoder). -/
def f32Max : List F32 → F32
  | [] => .nan
  | h :: t => t.foldl maxF h

/-- `np.min` of a list of float32 values. -/
def f32Min : List F32 → F32
  | [] => .nan
  | h :: t => t.foldl minF h

/-- Whether `np.ptp(l) != 0` is **false**, i.e. `max l - min l == 0`.
Floating-point subtraction of the maximum and minimum returns zero
exactly when both are finite and equal (any NaN or infinity makes the
difference NaN or infinite, hence `!= 0`). -/
def ptpIsZero (l : List F32) : Bool :=
  match f32Max l, f32Min l with
  | .fin a, .fin b => a == b
  | _, _ => false

/-- Maximum of a list of naturals (`np.max` on the int array `nx`). -/
def natMaxL : List Nat → Nat
  | [] => 0
  | h :: t => t.foldl max h

/-- Minimum of a list of naturals. -/
def natMinL : List Nat → Nat
  | [] => 0
  | h :: t => t.foldl min h

/-- `np.ptp` of a list of naturals. -/
def ptpNat (l : List Nat) : Nat := natMaxL l - natMinL l

/-! ## Binary cursor utilities (`fromfile` and friends)

Positions are integers because the series decoder computes them by
subtracting fixed deltas from signature match positions; a negative
seek raises in Python (`pythonError`), and `struct.unpack` raises when
`fid.read` returns fewer bytes than requested (`malformedRecord`). -/

/-- Read `n` raw bytes at `pos`; like Python's `fid.read`, a short
read silently returns the available bytes. -/
def readRaw (file : List Nat) (pos : Int) (n : Nat) : List Nat :=
  (file.drop pos.toNat).take n

/-- `fromfile(fid, "uint8", 1)` at an absolute position. -/
def readU8 (file : List Nat) (pos : Int) : Except OmnicError Nat :=
  if pos < 0 then .error .pythonError
  else match file.get? pos.toNat with
    | some b => .ok b
    | none => .error (.malformedRecord "unpack requires more bytes")

/-- `fromfile(fid, "uint16", 1)` (little endian). -/
def readU16 (file : List Nat) (pos : Int) : Except OmnicError Nat :=
  if pos < 0 then .error .pythonError
  else match file.get? pos.toNat, file.get? (pos.toNat + 1) with
    | some b0, some b1 => .ok (b0 + 256 * b1)
    | _, _ => .error (.malformedRecord "unpack requires more bytes")

/-- `fromfile(fid, "uint32", 1)` (little endian). -/
def readU32 (file : List Nat) (pos : Int) : Except OmnicError Nat :=
  if pos < 0 then .error .pythonError
  else match file.get? pos.toNat, file.get? (pos.toNat + 1),
        file.get? (pos.toNat + 2), file.get? (pos.toNat + 3) with
    | some b0, some b1, some b2, some b3 =>
        .ok (b0 + 256 * b1 + 65536 * b2 + 16777216 * b3)
    | _, _, _, _ => .error (.malformedRecord "unpack requires more bytes")

/-- `fromfile(fid, "float32", count)`: the raw 32-bit patterns of
`count` consecutive little-endian float32 values. -/
def readF32Bits (file : List Nat) (pos : Int) : Nat → Except OmnicError (List Nat)
  | 0 => .ok []
  | n + 1 => do
    let b ← readU32 file pos
    let rest ← readF32Bits file (pos + 4) n
    .ok (b :: rest)

/-- `fromfile(fid, "float32", 1)` decoded to a value. -/
def readF32 (file : List Nat) (pos : Int) : Except OmnicError F32 :=
  decodeF32 <$> readU32 file pos

/-! ## Text utilities (`_readbtext`) -/

/-- One step of `re.sub(b"\x00+", b"\n", btext)`: the flag records
whether the previous byte was part of a NUL run. -/
def collapseGo : Bool → List Nat → List Nat
  | _, [] => []
  | prevZero, 0 :: rest =>
      if prevZero then collapseGo true rest else 10 :: collapseGo true rest
  | _, b :: rest => b :: collapseGo false rest

/-- Collapse every run of NUL bytes to a single newline byte. -/
def collapseNuls (l : List Nat) : List Nat := collapseGo false l

/-- Strip one leading separator (`btext[:1] == b"\n"`). -/
def stripLead : List Nat → List Nat
  | 10 :: rest => rest
  | l => l

/-- Strip one trailing separator (`btext[-1:] == b"\n"`), applied
after `stripLead` as in the source. -/
def stripTrail (l : List Nat) : List Nat :=
  match l.reverse with
  | 10 :: rest => rest.reverse
  | _ => l

/-- Whether a byte is a UTF-8 continuation byte. -/
def isCont (b : Nat) : Bool := 128 ≤ b && b ≤ 191

/-- Strict UTF-8 decoding (as `bytes.decode("utf-8")`): rejects
overlong forms, surrogates and values above U+10FFFF. -/
def utf8Decode : List Nat → Option (List Char)
  | [] => some []
  | b :: rest =>
    if b < 128 then
      (utf8Decode rest).map (fun cs => Char.ofNat b :: cs)
    else if 194 ≤ b && b ≤ 223 then
      match rest with
      | c1 :: r =>
        if isCont c1 then
          (utf8Decode r).map (fun cs => Char.ofNat ((b - 192) * 64 + (c1 - 128)) :: cs)
        else none
      | _ => none
    else if 224 ≤ b && b ≤ 239 then
      match rest with
      | c1 :: c2 :: r =>
        let lo1 := if b = 224 then 160 else 128
        let hi1 := if b = 237 then 159 else 191
        if (lo1 ≤ c1 && c1 ≤ hi1) && isCont c2 then
          (utf8Decode r).map
            (fun cs => Char.ofNat ((b - 224) * 4096 + (c1 - 128) * 64 + (c2 - 128)) :: cs)
        else none
      | _ => none
    else if 240 ≤ b && b ≤ 244 then
      match rest with
      | c1 :: c2 :: c3 :: r =>
        let lo1 := if b = 240 then 144 else 128
        let hi1 := if b = 244 then 143 else 191
        if (lo1 ≤ c1 && c1 ≤ hi1) && isCont c2 && isCont c3 then
          (utf8Decode r).map
            (fun cs => Char.ofNat
              ((b - 240) * 262144 + (c1 - 128) * 4096 + (c2 - 128) * 64 + (c3 - 128)) :: cs)
        else none
      | _ => none
    else none

/-- Latin-1 decoding: total, each byte is one character. -/
def latin1Decode (l : List Nat) : List Char := l.map Char.ofNat

/-- The decoding cascade of `_readbtext`: UTF-8, then Latin-1 (which
never fails, so the final `errors="ignore"` branch is unreachable). -/
def decodeText (l : List Nat) : String :=
  match utf8Decode l with
  | some cs => String.mk cs
  | none => String.mk (latin1Decode l)

/-- The post-processing pipeline of `_readbtext`: collapse NUL runs,
strip one leading and one trailing separator, decode. -/
def textProcess (l : List Nat) : String :=
  decodeText (stripTrail (stripLead (collapseNuls l)))

/-- The `size is None` loop of `_readbtext`:
`while fid.read(1) != b"\x00": btext += fid.read(1)`.
Each iteration checks one byte against NUL and, when it is not NUL,
appends the **following** byte.  Reading at EOF returns `b""`, which
is never equal to `b"\x00"`, so the loop never terminates once the
check read passes the end of the file: that is `diverge`. -/
def pairLoop (file : List Nat) : Nat → Nat → Except OmnicError (List Nat)
  | 0, _ => .error .diverge
  | fuel + 1, pos =>
    match file.get? pos with
    | none => .error .diverge
    | some 0 => .ok []
    | some _ =>
      match file.get? (pos + 1) with
      | none => .error .diverge
      | some b => (pairLoop file fuel (pos + 2)).map (fun rest => b :: rest)

/-- `_readbtext(fid, pos, size)`. -/
def readbtext (file : List Nat) (pos : Int) (size : Option Nat) :
    Except OmnicError String :=
  if pos < 0 then .error .pythonError
  else match size with
  | some n => .ok (textProcess (readRaw file pos n))
  | none => (pairLoop file (file.length + 1) pos.toNat).map textProcess

/-- `_readbtext` at a position that is statically known nonnegative
with a fixed size (total). -/
def readbtextD (file : List Nat) (pos : Nat) (n : Nat) : String :=
  textProcess (readRaw file pos n)

/-! ## Python string helpers -/

/-- A single-quote character, kept out of string literals. -/
def sglq : String := String.mk [Char.ofNat 39]

/-- `str.capitalize()`: first character uppercased, the rest
lowercased (ASCII approximation of the Unicode title-casing, exact on
every string the reader produces). -/
def pythonCapitalize (s : String) : String :=
  match s.data with
  | [] => ""
  | c :: rest => String.mk (c.toUpper :: rest.map Char.toLower)

/-- Digit characters of a natural number (most significant first);
fuel-structural so that it reduces in the kernel. -/
def natDigits : Nat → Nat → List Char
  | 0, _ => []
  | fuel + 1, n =>
    if n < 10 then [Char.ofNat (48 + n)]
    else natDigits fuel (n / 10) ++ [Char.ofNat (48 + n % 10)]

/-- Decimal rendering of a natural number. -/
def natStr (n : Nat) : String :=
  if n = 0 then "0" else String.mk (natDigits (n + 1) n)

/-- Zero-padded two-digit rendering. -/
def pad2 (n : Nat) : String :=
  if n < 10 then "0" ++ natStr n else natStr n

/-- Civil date from a count of days since 1970-01-01 (proleptic
Gregorian), returning (year, month, day). -/
def civilFromDays (z : Nat) : Nat × Nat × Nat :=
  let z' := z + 719468
  let era := z' / 146097
  let doe := z' % 146097
  let yoe := (doe - doe / 1460 + doe / 36524 - doe / 146096) / 365
  let y := yoe + era * 400
  let doy := doe - (365 * yoe + yoe / 4 - yoe / 100)
  let mp := (5 * doy + 2) / 153
  let d := doy - (153 * mp + 2) / 5 + 1
  let m := if mp < 10 then mp + 3 else mp - 9
  (if m ≤ 2 then y + 1 else y, m, d)

/-- `datetime.astimezone(UTC).isoformat(sep=" ", timespec="seconds")`
for an aware UTC datetime given as seconds since the Unix epoch
(the reader only renders `utcnow()` values, which are after 1970). -/
def isoUTC (t : Nat) : String :=
  let days := t / 86400
  let secs := t % 86400
  let ymd := civilFromDays days
  natStr ymd.1 ++ "-" ++ pad2 ymd.2.1 ++ "-" ++ pad2 ymd.2.2 ++ " " ++
    pad2 (secs / 3600) ++ ":" ++ pad2 (secs % 3600 / 60) ++ ":" ++
    pad2 (secs % 60) ++ "+00:00"

/-! ## The history log (`OMNICReader.history` property)

`OMNICReader._history` is a **class-level** list of
`(utcnow-datetime, value)` pairs.  A decode only ever assigns strings
(or, in one `_read_srs` branch, a 1-tuple) to the `history` property,
and the setter then appends to the class-level list in place, so the
log is shared by every instance that never assigns a list; assigning a
list creates an instance attribute.  Timestamps are seconds since the
Unix epoch.  -/

/-- A value stored in a history entry: a plain string, or the 1-tuple
that `_read_srs` assigns (`self.history = ("...",)` with a trailing
comma). -/
inductive EVal where
  | s (v : String)
  | tup (v : String)
deriving DecidableEq, Repr

/-- One stored history entry: `(utcnow(), value)`. -/
abbrev HistEntry := Nat × EVal

/-- Python `repr` of a string (used by `str(tuple)`): single quotes
unless the string contains one and no double quote; backslash,
newline, carriage return, tab and the active quote are escaped. -/
def pyReprStr (v : String) : String :=
  let bs := String.mk [Char.ofNat 92]
  let dq := String.mk [Char.ofNat 34]
  let useDouble := v.data.contains (Char.ofNat 39) && !v.data.contains (Char.ofNat 34)
  let q := if useDouble then dq else sglq
  let esc := v.data.foldl (fun acc c =>
    if c = Char.ofNat 92 then acc ++ bs ++ bs
    else if c = Char.ofNat 10 then acc ++ bs ++ "n"
    else if c = Char.ofNat 13 then acc ++ bs ++ "r"
    else if c = Char.ofNat 9 then acc ++ bs ++ "t"
    else if String.mk [c] = q then acc ++ bs ++ String.mk [c]
    else acc ++ String.mk [c]) ""
  q ++ esc ++ q

/-- `str(value)` for a stored history value (`str` of a 1-tuple is
`"(" + repr(elem) + ",)"`). -/
def evalStr : EVal → String
  | .s v => v
  | .tup v => "(" ++ pyReprStr v ++ ",)"

/-- The `history` property getter: render every stored entry as
`"<iso8601 sep-space seconds>> <capitalized str(value)>"`. -/
def historyRender (entries : List HistEntry) : List String :=
  entries.map fun e => isoUTC e.1 ++ "> " ++ pythonCapitalize (evalStr e.2)

/-- A value assigned to the `history` property setter. -/
inductive HistVal where
  | none
  | list (l : List String)
  | str (v : String)
deriving DecidableEq, Repr

/-- The `history` property setter: `None` is ignored; a list replaces
the log and then appends the list's first element (an empty list just
clears it); anything else is appended with a fresh `utcnow()`
timestamp. -/
def historySet (cur : List HistEntry) (now : Nat) : HistVal → List HistEntry
  | .none => cur
  | .list [] => []
  | .list (a :: _) => [(now, .s a)]
  | .str v => cur ++ [(now, .s v)]

/-! ## Header decoding (`_read_header`) -/

/-- The fields `_read_header` adds only for `srs` files
(`"Spectral Exte File"` magic). -/
structure SrsExtra where
  name : String
  collectionLengthF : F32
  lasty : F32
  firsty : F32
  ny : Nat
  backgroundName : Option String
deriving DecidableEq, Repr

/-- The collection-length field: a `uint32` in 1/100 s for spa/spg
headers, overwritten for srs headers by `float32 * 60` (kept
symbolically as the raw float). -/
inductive CollVal where
  | centisec (v : Nat)
  | minutesF (v : F32)
deriving DecidableEq, Repr

/-- Decoded header record (`_read_header`'s `out` dict). -/
structure HeaderInfo where
  nx : Nat
  xunits : Option String
  xtitle : String
  units : Option String
  title : String
  firstx : F32
  lastx : F32
  scanPts : Nat
  zpd : Nat
  nscan : Nat
  nbkgscan : Nat
  collectionLength : CollVal
  referenceFrequency : F32
  opticalVelocity : F32
  history : String
  srs : Option SrsExtra
deriving DecidableEq, Repr

/-- ASCII bytes of `"Spectral Data File"`. -/
def magicSpaSpg : List Nat :=
  [83, 112, 101, 99, 116, 114, 97, 108, 32, 68, 97, 116, 97, 32, 70, 105, 108, 101]

/-- ASCII bytes of `"Spectral Exte File"`. -/
def magicSrs : List Nat :=
  [83, 112, 101, 99, 116, 114, 97, 108, 32, 69, 120, 116, 101, 32, 70, 105, 108, 101]

/-- The x-axis lookup of `_read_header` (key byte at `pos + 8`):
returns (`xunits`, `xtitle`, log messages). -/
def xunitsLookup (key : Nat) : Option String × String × List String :=
  if key = 1 then (some "cm^-1", "wavenumbers", [])
  else if key = 2 then (none, "data points", [])
  else if key = 3 then (some "nm", "wavelengths", [])
  else if key = 4 then (some "um", "wavelengths", [])
  else if key = 32 then (some "cm^-1", "raman shift", [])
  else (none, "xaxis",
    ["The nature of x data is not recognized, xtitle is set to " ++
      sglq ++ "xaxis" ++ sglq])

/-- The data-units lookup of `_read_header` (key byte at `pos + 12`);
the fallback message is logged only for the first spectrum. -/
def unitsLookup (key : Nat) (isFirstSpectrum : Bool) :
    Option String × String × List String :=
  if key = 17 then (some "absorbance", "absorbance", [])
  else if key = 16 then (some "percent", "transmittance", [])
  else if key = 11 then (some "percent", "reflectance", [])
  else if key = 12 then (none, "log(1/R)", [])
  else if key = 15 then (none, "single beam", [])
  else if key = 20 then (some "Kubelka_Munk", "Kubelka-Munk", [])
  else if key = 21 then (none, "reflectance", [])
  else if key = 22 then (some "V", "detector signal", [])
  else if key = 26 then (none, "photoacoustic", [])
  else if key = 31 then (none, "Raman intensity", [])
  else (none, "intensity",
    if isFirstSpectrum then
      ["The nature of data is not recognized (key == " ++ natStr key ++
        "), title set to " ++ sglq ++ "Intensity" ++ sglq]
    else [])

/-- First line of a string (`out["name"].split("\n")[0]`). -/
def firstLine (s : String) : String :=
  String.mk (s.data.takeWhile (fun c => c ≠ Char.ofNat 10))

/-- String prefix-of-length-10 test used for the background marker
(`text[:10] == "Background"`). -/
def take10 (s : String) : String := String.mk (s.data.take 10)

/-- Characters after the first 10 (`text[10:]`). -/
def drop10 (s : String) : String := String.mk (s.data.drop 10)

/-- `_read_header(fid, pos, is_first_spectrum)`: the fixed-offset
reads, the two lookup tables, and for srs files the extra series
fields, the rapid-scan axis swap and the background-name marker.
If the file starts with neither magic string, Python raises a
`NameError` at the first use of `filetype` (after the common reads).
Returns the decoded record together with the `info_` log messages. -/
def read_header (file : List Nat) (pos : Int) (isFirstSpectrum : Bool := true) :
    Except OmnicError (HeaderInfo × List String) := do
  let nx ← readU32 file (pos + 4)
  let xkey ← readU8 file (pos + 8)
  let xl := xunitsLookup xkey
  let ukey ← readU8 file (pos + 12)
  let ul := unitsLookup ukey isFirstSpectrum
  let firstx ← readF32 file (pos + 16)
  let lastx ← readF32 file (pos + 20)
  let scanPts ← readU32 file (pos + 28)
  let zpd ← readU32 file (pos + 32)
  let nscan ← readU32 file (pos + 36)
  let nbkgscan ← readU32 file (pos + 52)
  let collLen ← readU32 file (pos + 68)
  let refFreq ← readF32 file (pos + 80)
  let optVel ← readF32 file (pos + 188)
  let logs := xl.2.2 ++ ul.2.2
  if readRaw file 0 18 = magicSpaSpg then
    let hist ← readbtext file (pos + 208) none
    .ok ({ nx := nx, xunits := xl.1, xtitle := xl.2.1, units := ul.1,
           title := ul.2.1, firstx := firstx, lastx := lastx,
           scanPts := scanPts, zpd := zpd, nscan := nscan,
           nbkgscan := nbkgscan, collectionLength := .centisec collLen,
           referenceFrequency := refFreq, opticalVelocity := optVel,
           history := hist, srs := none }, logs)
  else if readRaw file 0 18 = magicSrs then
    let fl := if nbkgscan = 0 && !f32EqvB firstx lastx &&
        (match firstx, lastx with
         | .fin a, .fin b => decide (b < a)
         | .inf false, _ => true
         | _, _ => false) then (lastx, firstx) else (firstx, lastx)
    let name := firstLine (readbtextD file (pos.toNat + 938) 256)
    let collF ← readF32 file (pos + 1002)
    let lasty ← readF32 file (pos + 1006)
    let firsty ← readF32 file (pos + 1010)
    let ny ← readU32 file (pos + 1026)
    let hist ← readbtext file (pos + 1200) none
    let bgText := readbtextD file (pos.toNat + 208) 256
    let bgName := if take10 bgText = "Background" then some (drop10 bgText) else none
    .ok ({ nx := nx, xunits := xl.1, xtitle := xl.2.1, units := ul.1,
           title := ul.2.1, firstx := fl.1, lastx := fl.2,
           scanPts := scanPts, zpd := zpd, nscan := nscan,
           nbkgscan := nbkgscan, collectionLength := .minutesF collF,
           referenceFrequency := refFreq, opticalVelocity := optVel,
           history := hist,
           srs := some { name := name, collectionLengthF := collF,
                         lasty := lasty, firsty := firsty, ny := ny,
                         backgroundName := bgName } }, logs)
  else
    .error .pythonError

/-- `_getintensities(fid, pos)`: intensity position and byte size at
`pos + 2` / `pos + 6`, then `size / 4` float32 patterns. -/
def getintensities (file : List Nat) (pos : Int) :
    Except OmnicError (List Nat) := do
  let ipos ← readU32 file (pos + 2)
  let isize ← readU32 file (pos + 6)
  readF32Bits file (ipos : Int) (isize / 4)

/-! ## The output dataset (`OMNICReader` instance attributes) -/

/-- Column axis: `np.linspace(firstx, lastx, nx)` is kept symbolically
(the decoder never inspects individual samples), `np.arange(n)` for
interferograms. -/
inductive XAxis where
  | linspaceF (first last : F32) (n : Nat)
  | arange (n : Nat)
deriving DecidableEq, Repr

/-- Row axis values. `ints` is an exact list of integral timestamps
(`_read_spg`, stored in a float64 array, exact for these magnitudes);
`intsAsF32` records the float32 cast of `_read_spa` / the `[0]`
background row of `_read_srs`; `linRound` is
`np.around(np.linspace(firsty, lasty, ny), 3)` kept symbolically. -/
inductive YAxis where
  | ints (l : List Int)
  | intsAsF32 (l : List Int)
  | linRound (first last : F32) (n : Nat)
deriving DecidableEq, Repr

/-- `y_timestamp` (`min` of the row axis). -/
inductive YStamp where
  | int (v : Int)
  | f32 (v : F32)
  | minLin (first last : F32) (n : Nat)
deriving DecidableEq, Repr

/-- `y_labels`. -/
inductive YLabels where
  | datesNames (dates : List Int) (names : List String)
  | names (l : List String)
deriving DecidableEq, Repr

/-- `collection_length` as stored on the reader: divided by 100 by
`_read_spa`, kept raw by `_read_srs`. -/
inductive CollOut where
  | div100 (v : CollVal)
  | raw (v : CollVal)
deriving DecidableEq, Repr

/-- The `interferogram` attribute: `False`, `True`, or one of the two
marker strings. -/
inductive IfgFlag where
  | b (v : Bool)
  | s (v : String)
deriving DecidableEq, Repr

/-- The attributes a decode sets on the reader.  Every field defaults
to its class-level default, so an early `return` (null result) leaves
all of them untouched.  `instHistory` is the instance-level
`_history` attribute: it stays `none` unless a list is assigned to
the `history` property, which no decode path does, so rendered
history always comes from the shared class-level log. -/
structure ReaderState where
  data : Option (List (List Nat)) := none
  units : Option String := none
  title : Option String := none
  name : Option String := none
  filename : Option String := none
  origin : String := ""
  originalName : Option String := none
  x : Option XAxis := none
  xTitle : Option String := none
  xUnits : Option String := none
  y : Option YAxis := none
  yTimestamp : Option YStamp := none
  yTitle : Option String := none
  yUnits : Option String := none
  yLabels : Option YLabels := none
  mask : Option (List (List Bool)) := none
  interferogram : IfgFlag := .b false
  date : Option Nat := none
  collectionLength : Option CollOut := none
  collectionLengthUnits : Option String := none
  opticalVelocity : Option F32 := none
  laserFrequency : Option F32 := none
  laserFrequencyUnits : Option String := none
  description : String := ""
  instHistory : Option (List HistEntry) := none
deriving DecidableEq, Repr

/-- `np.isnan` over the whole data matrix. -/
def isNanMatrix (rows : List (List Nat)) : List (List Bool) :=
  rows.map (·.map isNanBits)

/-- Result of one decode call: the constructed reader state (or the
raised error), the class-level history list after the call, whether
the `ByteSource` was closed, and the `info_` log messages emitted. -/
structure DecodeOut where
  result : Except OmnicError ReaderState
  shared : List HistEntry
  closed : Bool
  log : List String
deriving DecidableEq, Repr

/-- `Path(p).name`: the part after the last slash. -/
def pathName (p : String) : String :=
  String.mk ((p.data.reverse.takeWhile (fun c => c ≠ Char.ofNat 47)).reverse)

/-- Drop the extension from a file name (the part after the last dot,
if the dot is not the first character). -/
def dropExt (n : List Char) : List Char :=
  let rev := n.reverse
  let stemRev := rev.dropWhile (fun c => c ≠ Char.ofNat 46)
  match stemRev with
  | _ :: (rest@(_ :: _)) => rest.reverse
  | _ => n

/-- `Path(p).stem`. -/
def pathStem (p : String) : String := String.mk (dropExt (pathName p).data)

/-- `filename if filename else default`. -/
def resolvedName (fname : Option String) (dflt : String) : String :=
  match fname with
  | some f => f
  | none => dflt

/-- Seconds from the Unix epoch to 1899-12-31T00:00:00Z (the OMNIC
timestamp epoch): `datetime(1899, 12, 31, tzinfo=UTC).timestamp()`. -/
def epoch1899 : Int := -2209075200

/-! ## The spectrum-collection decoder (`_read_spg`) -/

/-- Tag-table positions whose key equals `k`:
`304 * ones + 16 * nonzero(keys == k)`. -/
def keyPositions (keys : List Nat) (k : Nat) : List Int :=
  (keys.enum.filterMap fun p =>
    if p.2 = k then some ((304 : Int) + 16 * (p.1 : Int)) else none)

/-- Read the `nlines` block-tag keys from offset 304 with 16-byte
stride. -/
def spgKeys (file : List Nat) : Except OmnicError (List Nat) := do
  let nlines ← readU16 file 294
  (List.range nlines).mapM fun i => readU8 file ((304 : Int) + 16 * (i : Int))

/-- The header loop of `_read_spg`: for each `02` block read the
header position at `+2` and decode the header (warnings suppressed
after the first spectrum).  Log messages are concatenated. -/
def spgHeadersLoop (file : List Nat) :
    List Int → Bool → Except OmnicError (List HeaderInfo) × List String
  | [], _ => (.ok [], [])
  | p :: rest, isFirst =>
    match readU32 file (p + 2) with
    | .error e => (.error e, [])
    | .ok hp =>
      match read_header file (hp : Int) isFirst with
      | .error e => (.error e, [])
      | .ok (info, lg) =>
        match spgHeadersLoop file rest false with
        | (.error e, lg2) => (.error e, lg ++ lg2)
        | (.ok infos, lg2) => (.ok (info :: infos), lg ++ lg2)

/-- Everything `_read_spg` does before the consistency checks: read
the key table, count the `02` markers (raising when there are none)
and decode every spectrum header. -/
def spgScan (file : List Nat) :
    Except OmnicError (List HeaderInfo × List Nat) × List String :=
  match spgKeys file with
  | .error e => (.error e, [])
  | .ok keys =>
    if keys.count 2 = 0 then
      (.error (.malformedRecord
        "OSError : File format not recognized - information markers not found"), [])
    else
      match spgHeadersLoop file (keyPositions keys 2) true with
      | (.error e, lg) => (.error e, lg)
      | (.ok infos, lg) => (.ok (infos, keys), lg)

/-- The five consistency checks of `_read_spg`, in source order (the
messages of the two unit checks are swapped in the source and are
reproduced as such). -/
def spgCheck (infos : List HeaderInfo) : Except OmnicError Unit :=
  if ptpNat (infos.map (·.nx)) ≠ 0 then
    .error (.inconsistentDataset
      "Error : Inconsistent data set - number of wavenumber per spectrum should be identical")
  else if !ptpIsZero (infos.map (·.firstx)) then
    .error (.inconsistentDataset
      "Error : Inconsistent data set - the x axis should start at same value")
  else if !ptpIsZero (infos.map (·.lastx)) then
    .error (.inconsistentDataset
      "Error : Inconsistent data set - the x axis should end at same value")
  else if (infos.map (·.xunits)).dedup.length ≠ 1 then
    .error (.inconsistentDataset
      "Error : Inconsistent data set - data units should be identical")
  else if (infos.map (·.units)).dedup.length ≠ 1 then
    .error (.inconsistentDataset
      "Error : Inconsistent data set - x axis units should be identical")
  else .ok ()

/-- The intensity loop: `data[i, :] = _getintensities(fid, position03[i])`
for `i` from `0` to `nspec - 1`.  Indexing past the end of the `03`
position list is an `IndexError`; a row whose length differs from `nx`
is a numpy broadcast error. -/
def spgDataLoop (file : List Nat) (pos03 : List Int) (nx0 : Nat)
    (nspec : Nat) : Except OmnicError (List (List Nat)) :=
  (List.range nspec).mapM fun i =>
    match pos03.get? i with
    | none => .error .pythonError
    | some p => do
      let row ← getintensities file p
      if row.length ≠ nx0 then .error .pythonError
      else pure row

/-- The titles / acquisition-dates loop over the `6B` blocks, for `i`
from `0` to `nspec - 1` (`position6B[i]`, an `IndexError` past the end
of the list): returns (titles, timestamps); timestamps are seconds
since the Unix epoch (`epoch1899 + raw uint32`). -/
def spgTitlesLoop (file : List Nat) (pos6B : List Int) (nspec : Nat) :
    Except OmnicError (List String × List Int) := do
  let pairs ← (List.range nspec).mapM fun i =>
    match pos6B.get? i with
    | none => .error (.pythonError)
    | some p => do
      let namePos ← readU32 file (p + 2)
      let nm ← readbtext file (namePos : Int) (some 256)
      let ts ← readU32 file ((namePos : Int) + 256)
      pure (nm, epoch1899 + (ts : Int))
  pure (pairs.map Prod.fst, pairs.map Prod.snd)

/-- Minimum of a nonempty list of integers (`min(timestamps)`). -/
def intMinL : List Int → Int
  | [] => 0
  | h :: t => t.foldl min h

/-- `_read_spg`.  `fname` is the resolved file name (`None` when the
source was a bytes buffer), `now` the value of `utcnow()`, `shared`
the class-level `_history` list on entry. -/
def read_spg (file : List Nat) (fname : Option String) (now : Nat)
    (shared : List HistEntry) : DecodeOut :=
  let spgName := readbtextD file 30 256
  match spgScan file with
  | (.error e, lg) => ⟨.error e, shared, false, lg⟩
  | (.ok (infos, keys), lg) =>
    match spgCheck infos with
    | .error e => ⟨.error e, shared, false, lg⟩
    | .ok _ =>
      match infos with
      | [] => ⟨.error .pythonError, shared, false, lg⟩
      | info0 :: _ =>
        match spgDataLoop file (keyPositions keys 3) info0.nx infos.length with
        | .error e => ⟨.error e, shared, false, lg⟩
        | .ok rows =>
          match spgTitlesLoop file (keyPositions keys 107) infos.length with
          | .error e => ⟨.error e, shared, false, lg⟩
          | .ok (titles, tss) =>
            -- fid.close() happens here; everything below cannot raise
            let fnameStr := resolvedName fname spgName
            let st : ReaderState := {
              data := some rows
              units := info0.units
              title := some info0.title
              name := some (pathStem fnameStr)
              filename := some fnameStr
              origin := "omnic"
              originalName := some spgName
              x := some (.linspaceF info0.firstx info0.lastx info0.nx)
              xTitle := some info0.xtitle
              xUnits := info0.xunits
              y := some (.ints tss)
              yTimestamp := some (.int (intMinL tss))
              yTitle := some "acquisition timestamp (GMT)"
              yUnits := some "s"
              yLabels := some (.datesNames tss titles)
              date := some now }
            ⟨.ok st, shared ++ [(now, .s ("Imported from spg file " ++
              pathName fnameStr ++ "."))], true, lg⟩

/-! ## The single-spectrum decoder (`_read_spa`) -/

/-- Accumulated results of the `_read_spa` tag-scan loop.  `keys`
records every key byte read (the block-tag table up to and including
the terminator), so that "the table contains no interferogram marker"
is expressible. -/
structure SpaScanState where
  info : Option HeaderInfo := none
  intensities : Option (List Nat) := none
  comments : List String := []
  history : Option String := none
  sIfg : Option (List Nat) := none
  bIfg : Option (List Nat) := none
  keys : List Nat := []
deriving DecidableEq, Repr

/-- One dispatch step of the `_read_spa` tag scan for the key byte at
`pos` (already appended to `st.keys`): decode the block it points to,
or return `none` to stop at a `00`/`01` terminator key; unknown keys
are skipped. -/
def spaStep (file : List Nat) (ifg : Option String) (pos : Int) (key : Nat)
    (st : SpaScanState) : Except OmnicError (Option SpaScanState) × List String :=
  if key = 2 then
    match readU32 file (pos + 2) with
    | .error e => (.error e, [])
    | .ok hp =>
      match read_header file (hp : Int) with
      | .error e => (.error e, [])
      | .ok (info, lg) => (.ok (some { st with info := some info }), lg)
  else if key = 3 && ifg = none then
    match getintensities file pos with
    | .error e => (.error e, [])
    | .ok v => (.ok (some { st with intensities := some v }), [])
  else if key = 4 then
    match readU32 file (pos + 2), readU32 file (pos + 6) with
    | .ok cpos, .ok clen =>
      (.ok (some { st with comments := st.comments ++
        [String.mk (latin1Decode (readRaw file (cpos : Int) clen))] }), [])
    | .error e, _ => (.error e, [])
    | _, .error e => (.error e, [])
  else if key = 27 then
    match readU32 file (pos + 2), readU32 file (pos + 6) with
    | .ok hpos, .ok hlen =>
      (match readbtext file (hpos : Int) (some hlen) with
       | .error e => (.error e, [])
       | .ok h => (.ok (some { st with history := some h }), []))
    | .error e, _ => (.error e, [])
    | _, .error e => (.error e, [])
  else if key = 102 && ifg = some "sample" then
    match getintensities file pos with
    | .error e => (.error e, [])
    | .ok v => (.ok (some { st with sIfg := some v }), [])
  else if key = 103 && ifg = some "background" then
    match getintensities file pos with
    | .error e => (.error e, [])
    | .ok v => (.ok (some { st with bIfg := some v }), [])
  else if key = 0 || key = 1 then
    (.ok none, [])
  else
    (.ok (some st), [])

/-- The `while "continue"` scan of `_read_spa` from offset 304 with
16-byte stride; stops at a `00`/`01` key.  Reading the key byte past
EOF is a `struct.error`.  Fuel bounds the number of iterations; it is
called with more fuel than any terminating run can use. -/
def spaScanLoop (file : List Nat) (ifg : Option String) :
    Nat → Int → SpaScanState → Except OmnicError SpaScanState × List String
  | 0, _, _ => (.error .diverge, [])
  | fuel + 1, pos, st =>
    match readU8 file pos with
    | .error e => (.error e, [])
    | .ok key =>
      let st1 := { st with keys := st.keys ++ [key] }
      match spaStep file ifg pos key st1 with
      | (.error e, lg) => (.error e, lg)
      | (.ok none, lg) => (.ok st1, lg)
      | (.ok (some st2), lg) =>
        match spaScanLoop file ifg fuel (pos + 16) st2 with
        | (r, lg2) => (r, lg ++ lg2)

/-- Everything `_read_spa` does before closing the source: the
original-name read at 30, the acquisition timestamp at 296, and the
tag scan. -/
def spaPhase (file : List Nat) (ifg : Option String) :
    Except OmnicError (String × Nat × SpaScanState) × List String :=
  let spaName := readbtextD file 30 256
  match readU32 file 296 with
  | .error e => (.error e, [])
  | .ok ts =>
    match spaScanLoop file ifg (file.length + 1) 304 {} with
    | (.error e, lg) => (.error e, lg)
    | (.ok st, lg) => (.ok (spaName, ts, st), lg)

/-- Description text built from the user-comment blocks (only when
more than one was found). -/
def spaDescription (comments : List String) : String :=
  if comments.length ≤ 1 then ""
  else "# Comments from Omnic:\n" ++
    comments.foldl (fun acc c => acc ++ c ++ "\n---------------------\n") ""

/-- The intensity row `_read_spa` loads into the dataset: the sample
or background interferogram when one was requested, the `03` spectrum
intensities otherwise. -/
def spaSelection (ifg : Option String) (st : SpaScanState) : Option (List Nat) :=
  match ifg with
  | some "sample" => st.sIfg
  | some "background" => st.bIfg
  | _ => st.intensities

/-- Everything `_read_spa` does after the null-result check (lines
648-719 of the source): assemble the dataset and append the history
entries.  `info` is required on every path (`collection_length`), the
intensity row on every path. -/
def spaTail (ifg : Option String) (spaName : String) (ts : Nat)
    (st : SpaScanState) (fname : Option String) (now : Nat)
    (shared : List HistEntry) (lg : List String) : DecodeOut :=
  match spaSelection ifg st with
  | none => ⟨.error .pythonError, shared, true, lg⟩
  | some row =>
    match st.info with
    | none => ⟨.error .pythonError, shared, true, lg⟩
    | some info =>
      let acq : Int := epoch1899 + ts
      let base : ReaderState := {
        data := some [row]
        y := some (.intsAsF32 [acq])
        yTimestamp := some (.int acq)
        yTitle := some (if ifg = some "background" then
            "sample acquisition timestamp (GMT)" else "acquisition timestamp (GMT)")
        yUnits := some "s"
        yLabels := some (.datesNames [acq] [spaName])
        mask := some (isNanMatrix [row])
        name := some spaName
        filename := some (resolvedName fname spaName)
        origin := "omnic"
        originalName := some spaName
        collectionLength := some (.div100 info.collectionLength)
        collectionLengthUnits := some "s"
        opticalVelocity := some info.opticalVelocity
        laserFrequency := some info.referenceFrequency
        laserFrequencyUnits := some "cm^-1"
        description := spaDescription st.comments
        date := some now }
      let st1 :=
        if ifg = none then
          { base with
            interferogram := IfgFlag.b false
            units := info.units
            title := some info.title
            x := some (.linspaceF info.firstx info.lastx info.nx)
            xTitle := some info.xtitle
            xUnits := info.xunits }
        else
          { base with
            interferogram := IfgFlag.s
              (if ifg = some "sample" then "sample IFG" else "background IFG")
            units := some "V"
            title := some "detector signal"
            x := some (.arange row.length)
            xTitle := some "data points"
            xUnits := none }
      let shared1 := shared ++ [(now, .s "Imported from spa file(s)")]
      let shared2 :=
        match st.history with
        | some h => shared1 ++ [(now, .s
            ("Data processing history from Omnic :\n------------------------------------\n" ++ h))]
        | none => shared1
      ⟨.ok st1, shared2, true, lg⟩

/-- `_read_spa`: scan, close the source, return a null result (with an
informational log entry) when the requested interferogram marker was
absent, otherwise assemble the dataset. -/
def read_spa (file : List Nat) (ifg : Option String) (fname : Option String)
    (now : Nat) (shared : List HistEntry) : DecodeOut :=
  match spaPhase file ifg with
  | (.error e, lg) => ⟨.error e, shared, false, lg⟩
  | (.ok (spaName, ts, st), lg) =>
    -- fid.close() precedes the missing-interferogram check
    if (ifg = some "sample" && st.sIfg = none) ||
        (ifg = some "background" && st.bIfg = none) then
      ⟨.ok {}, shared, true, lg ++ ["No interferogram found, read_spa returns None"]⟩
    else
      spaTail ifg spaName ts st fname now shared lg

/-- `_read_ddr`: runs `_read_spa`, then executes
`self.history[-1] = "Imported from ddr file(s)"`.  The `history`
getter returns a **fresh** list, so the assignment mutates a
temporary and leaves the stored log unchanged; on an empty log the
`[-1]` indexing raises `IndexError`. -/
def read_ddr (file : List Nat) (ifg : Option String) (fname : Option String)
    (now : Nat) (shared : List HistEntry) : DecodeOut :=
  let out := read_spa file ifg fname now shared
  match out.result with
  | .error _ => out
  | .ok st =>
    let rendered := historyRender (match st.instHistory with
      | some h => h
      | none => out.shared)
    if rendered.isEmpty then
      { out with result := .error .pythonError }
    else
      -- rendered.set (rendered.length - 1) "Imported from ddr file(s)" is
      -- computed and discarded, as in the source
      out

/-- `_read_hdr` (identical slip with the `hdr` label). -/
def read_hdr (file : List Nat) (ifg : Option String) (fname : Option String)
    (now : Nat) (shared : List HistEntry) : DecodeOut :=
  let out := read_spa file ifg fname now shared
  match out.result with
  | .error _ => out
  | .ok st =>
    let rendered := historyRender (match st.instHistory with
      | some h => h
      | none => out.shared)
    if rendered.isEmpty then
      { out with result := .error .pythonError }
    else
      out

/-- `_read_sdr` (identical slip with the `sdr` label). -/
def read_sdr (file : List Nat) (ifg : Option String) (fname : Option String)
    (now : Nat) (shared : List HistEntry) : DecodeOut :=
  let out := read_spa file ifg fname now shared
  match out.result with
  | .error _ => out
  | .ok st =>
    let rendered := historyRender (match st.instHistory with
      | some h => h
      | none => out.shared)
    if rendered.isEmpty then
      { out with result := .error .pythonError }
    else
      out

/-! ## The series decoder (`_read_srs`) -/

/-- Rapid-scan signature (16 bytes). -/
def subRs : List Nat := [2, 0, 0, 0, 24, 0, 0, 0, 0, 0, 72, 67, 0, 80, 67, 71]

/-- High-speed real-time signature (16 bytes). -/
def subHs : List Nat := [2, 0, 0, 0, 24, 0, 0, 0, 0, 0, 72, 67, 0, 200, 175, 71]

/-- TGA/GC signature: the shared 10-byte prefix of the other two. -/
def subTg : List Nat := [2, 0, 0, 0, 24, 0, 0, 0, 0, 0]

/-- The all-0xFF marker preceding relocated rapid-scan history. -/
def ffSub : List Nat := List.replicate 16 255

/-- The marker preceding high-speed history. -/
def hsHistSub : List Nat := [0, 0, 0, 0, 16, 0, 0, 0, 0, 0, 0, 0, 0, 0, 255, 255]

/-- `bytes.find(pat, i)` scanning a suffix: first match position. -/
def findSubAux (pat : List Nat) : List Nat → Nat → Option Nat
  | [], _ => none
  | l@(_ :: rest), i =>
    if l.take pat.length = pat then some i else findSubAux pat rest (i + 1)

/-- `content.find(pat, start)` (for the nonempty patterns used here). -/
def findSub (content pat : List Nat) (start : Nat) : Option Nat :=
  findSubAux pat (content.drop start) start

/-- All signature occurrences from the first match onwards
(`index = [pos]; while pos != -1: pos = find(sub, pos + 1) ...`,
with the trailing `-1` stripped). -/
def occsAux (content pat : List Nat) : Nat → Nat → List Nat
  | 0, p => [p]
  | fuel + 1, p =>
    p :: (match findSub content pat (p + 1) with
      | none => []
      | some p2 => occsAux content pat fuel p2)

/-- All occurrences of `pat` starting from first match `p`. -/
def occurrences (content pat : List Nat) (p : Nat) : List Nat :=
  occsAux content pat (content.length + 1) p

/-- `fromfile(fid, "uint8", 16)[0]`: needs 16 bytes, uses the first. -/
def readU8x16 (file : List Nat) (pos : Nat) : Except OmnicError Nat :=
  if pos + 16 ≤ file.length then
    match file.get? pos with
    | some b => .ok b
    | none => .error (.malformedRecord "unpack requires more bytes")
  else .error (.malformedRecord "unpack requires more bytes")

/-- `_read_srs_spectra` body: name (256 bytes), 84-byte offset to the
row of `nx` float32 values, 16-byte gap before each subsequent
record. -/
def srsSpectraAux (file : List Nat) (nx : Nat) :
    Nat → Int → Except OmnicError (List String × List (List Nat))
  | 0, _ => .ok ([], [])
  | n + 1, pos => do
    let nm ← readbtext file pos (some 256)
    let row ← readF32Bits file (pos + 84) nx
    let rest ← srsSpectraAux file nx n (pos + 84 + 4 * (nx : Int) + 16)
    .ok (nm :: rest.1, row :: rest.2)

/-- `_read_srs_spectra(fid, pos_data, n_spectra, n_points)`; with
`n_spectra == 0` the unconditional `data[0, :] = ...` raises. -/
def read_srs_spectra (file : List Nat) (posData : Int) (ny nx : Nat) :
    Except OmnicError (List String × List (List Nat)) :=
  if ny = 0 then .error .pythonError
  else srsSpectraAux file nx ny posData

/-- Intermediate outcome of the variant-specific part of `_read_srs`:
an early null return (unsupported long-header background), a decoded
series, or a decoded short-header background row. -/
inductive SrsPhase where
  | nullResult
  | series (info : HeaderInfo) (names : List String)
      (rows : List (List Nat)) (hist : Option String)
  | bgShort (info : HeaderInfo) (row : List Nat)
deriving Repr

/-- The rapid-scan branch: reprocessed marker at 292, exactly three
signature occurrences (a different count breaks the numpy broadcast
before the explicit length check), header/background/data offsets at
`{-152, -152, +60}`, history relocation after the all-0xFF marker for
reprocessed files. -/
def srsRapid (file : List Nat) (p1 : Nat) (bg : Bool) :
    Except OmnicError SrsPhase × List String :=
  match readU8x16 file 292 with
  | .error e => (.error e, [])
  | .ok key =>
    if key = 39 ∨ key = 15 then
      let repro := key = 15
      let occs := occurrences file subRs p1
      if occs.length ≠ 3 then (.error .pythonError, [])
      else
        let i0 : Int := (occs.getD 0 0 : Int) - 152
        let i1 : Int := (occs.getD 1 0 : Int) - 152
        let i2 : Int := (occs.getD 2 0 : Int) + 60
        if !bg then
          match read_header file i0 with
          | .error e => (.error e, [])
          | .ok (info, lg) =>
            match info.srs with
            | none => (.error .pythonError, lg)
            | some ex =>
              match read_srs_spectra file i2 ex.ny info.nx with
              | .error e => (.error e, lg)
              | .ok (names, rows) =>
                if !repro then
                  (.ok (.series info names rows (some info.history)), lg)
                else
                  let hpos : Int := (match findSub file ffSub 0 with
                    | some p => (p : Int)
                    | none => -1) + 16
                  match readbtext file hpos none with
                  | .error e => (.error e, lg)
                  | .ok h => (.ok (.series info names rows (some h)), lg)
        else
          match read_header file i1 with
          | .error e => (.error e, [])
          | .ok (info, lg) =>
            match info.srs >>= (·.backgroundName) with
            | none =>
              match readF32Bits file (i1 + 208) info.nx with
              | .error e => (.error e, lg)
              | .ok row => (.ok (.bgShort info row), lg)
            | some _ => (.ok .nullResult, lg)
    else
      (.error (.malformedRecord
        "The file is not recognized as a Rapid Scan srs file."), [])

/-- The high-speed branch: exactly four occurrences, offsets
`{-152, -152, 0, +60}`, history relocated after a fixed marker. -/
def srsHigh (file : List Nat) (p1 : Nat) (bg : Bool) :
    Except OmnicError SrsPhase × List String :=
  let occs := occurrences file subHs p1
  if occs.length ≠ 4 then (.error .pythonError, [])
  else
    let i0 : Int := (occs.getD 0 0 : Int) - 152
    let i1 : Int := (occs.getD 1 0 : Int) - 152
    let i3 : Int := (occs.getD 3 0 : Int) + 60
    if !bg then
      match read_header file i0 with
      | .error e => (.error e, [])
      | .ok (info, lg) =>
        match info.srs with
        | none => (.error .pythonError, lg)
        | some ex =>
          match read_srs_spectra file i3 ex.ny info.nx with
          | .error e => (.error e, lg)
          | .ok (names, rows) =>
            let hpos : Int := (match findSub file hsHistSub 0 with
              | some p => (p : Int)
              | none => -1) + 16
            match readbtext file hpos none with
            | .error e => (.error e, lg)
            | .ok h => (.ok (.series info names rows (some h)), lg)
    else
      match read_header file i1 with
      | .error e => (.error e, [])
      | .ok (info, lg) =>
        match info.srs >>= (·.backgroundName) with
        | none =>
          match readF32Bits file (i1 + 208) info.nx with
          | .error e => (.error e, lg)
          | .ok row => (.ok (.bgShort info row), lg)
        | some _ => (.ok .nullResult, lg)

/-- The TGA/GC branch: exactly three occurrences, offsets
`{-152, -152, +60}`, no history variable. -/
def srsTg (file : List Nat) (p1 : Nat) (bg : Bool) :
    Except OmnicError SrsPhase × List String :=
  let occs := occurrences file subTg p1
  if occs.length ≠ 3 then (.error .pythonError, [])
  else
    let i0 : Int := (occs.getD 0 0 : Int) - 152
    let i1 : Int := (occs.getD 1 0 : Int) - 152
    let i2 : Int := (occs.getD 2 0 : Int) + 60
    if !bg then
      match read_header file i0 with
      | .error e => (.error e, [])
      | .ok (info, lg) =>
        match info.srs with
        | none => (.error .pythonError, lg)
        | some ex =>
          match read_srs_spectra file i2 ex.ny info.nx with
          | .error e => (.error e, lg)
          | .ok (names, rows) => (.ok (.series info names rows none), lg)
    else
      match read_header file i1 with
      | .error e => (.error e, [])
      | .ok (info, lg) =>
        match info.srs >>= (·.backgroundName) with
        | none =>
          match readF32Bits file (i1 + 208) info.nx with
          | .error e => (.error e, lg)
          | .ok row => (.ok (.bgShort info row), lg)
        | some _ => (.ok .nullResult, lg)

/-- Lines 1012-1060 of the source: assemble the series dataset and
append the history entries; `fid.close()` is the last statement, so
reaching the end closes the source.  Series-only header fields
(`info["name"]`, `firsty`, `lasty`, `ny`) raise a `KeyError` when the
header was not an srs header. -/
def srsTailSeries (info : HeaderInfo) (names : List String)
    (rows : List (List Nat)) (hist : Option String) (revX : Bool)
    (fname : Option String) (now : Nat) (shared : List HistEntry)
    (lg : List String) : DecodeOut :=
  match info.srs with
  | none => ⟨.error .pythonError, shared, false, lg⟩
  | some ex =>
    let data2 := if revX then rows.map List.reverse else rows
    let fnameStr := resolvedName fname "unknown"
    let st : ReaderState := {
      data := some data2
      mask := some (isNanMatrix data2)
      units := info.units
      title := some info.title
      name := some ex.name
      filename := some fnameStr
      origin := "omnic"
      x := some (.linspaceF info.firstx info.lastx info.nx)
      xTitle := some info.xtitle
      xUnits := info.xunits
      y := some (.linRound ex.firsty ex.lasty ex.ny)
      yTitle := some "Time"
      yUnits := some "minute"
      yLabels := some (.names names)
      yTimestamp := some (.minLin ex.firsty ex.lasty ex.ny)
      laserFrequency := some info.referenceFrequency
      laserFrequencyUnits := some "cm^-1"
      collectionLength := some (.raw info.collectionLength)
      collectionLengthUnits := some "s"
      interferogram :=
        IfgFlag.b (info.xunits = none && info.xtitle = "data points") }
    let shared1 := match hist with
      | some h => shared ++ [(now, .tup ("Omnic " ++ sglq ++
          "DATA PROCESSING HISTORY" ++ sglq ++
          " :\n--------------------------------\n" ++ h))]
      | none => shared
    let shared2 := shared1 ++ [(now, .s (" imported from srs file " ++ fnameStr))]
    ⟨.ok st, shared2, true, lg⟩

/-- The background variant of the common tail: a one-row matrix, row
axis `[0]`, no series name override, no history variable. -/
def srsTailBg (info : HeaderInfo) (row : List Nat) (fname : Option String)
    (now : Nat) (shared : List HistEntry) (lg : List String) : DecodeOut :=
  let data2 := [row]
  let fnameStr := resolvedName fname "unknown"
  let st : ReaderState := {
    data := some data2
    mask := some (isNanMatrix data2)
    units := info.units
    title := some info.title
    name := some (match fname with | some f => pathStem f | none => "unnamed")
    filename := some fnameStr
    origin := "omnic"
    x := some (.linspaceF info.firstx info.lastx info.nx)
    xTitle := some info.xtitle
    xUnits := info.xunits
    y := some (.intsAsF32 [0])
    yTimestamp := some (.f32 (.fin 0))
    laserFrequency := some info.referenceFrequency
    laserFrequencyUnits := some "cm^-1"
    collectionLength := some (.raw info.collectionLength)
    collectionLengthUnits := some "s"
    interferogram :=
      IfgFlag.b (info.xunits = none && info.xtitle = "data points") }
  let shared2 := shared ++ [(now, .s (" imported from srs file " ++ fnameStr))]
  ⟨.ok st, shared2, true, lg⟩

/-- Finish a series decode from the variant phase outcome.  The early
null return (`return` inside the background branch) skips the final
`fid.close()`, so the source stays open there, as on every raise. -/
def srsFinish (res : Except OmnicError SrsPhase × List String)
    (revX : Bool) (fname : Option String) (now : Nat)
    (shared : List HistEntry) : DecodeOut :=
  match res with
  | (.error e, lg) => ⟨.error e, shared, false, lg⟩
  | (.ok .nullResult, lg) => ⟨.ok {}, shared, false, lg⟩
  | (.ok (.series info names rows hist), lg) =>
      srsTailSeries info names rows hist revX fname now shared lg
  | (.ok (.bgShort info row), lg) => srsTailBg info row fname now shared lg

/-- `_read_srs`: the three signatures are searched from byte offset 1
(`bytestring.find(sub, 1)`), rapid-scan first, then high-speed, then
the TGA/GC prefix; none found raises `UnsupportedFormat`. -/
def read_srs (file : List Nat) (bg revX : Bool) (fname : Option String)
    (now : Nat) (shared : List HistEntry) : DecodeOut :=
  match findSub file subRs 1 with
  | some p => srsFinish (srsRapid file p bg) revX fname now shared
  | none =>
    match findSub file subHs 1 with
    | some p => srsFinish (srsHigh file p bg) revX fname now shared
    | none =>
      match findSub file subTg 1 with
      | some p => srsFinish (srsTg file p bg) revX fname now shared
      | none =>
        ⟨.error (.unsupportedFormat
          ("The reader is only implemented for Rapid Scan, " ++
           "High Speed Real Time, GC or TGA srs files.")), shared, false, []⟩

/-! ## Disagreement predicate for the collection-consistency claim -/

/-- Two decoded spectrum headers disagree on axis length, first-x,
last-x, x-axis unit or data unit (float fields compared by IEEE
equality, so a NaN bound disagrees even with itself). -/
def headersDisagreeB (l : List HeaderInfo) : Bool :=
  l.any fun a => l.any fun b =>
    a.nx ≠ b.nx || !f32EqvB a.firstx b.firstx || !f32EqvB a.lastx b.lastx ||
    a.xunits ≠ b.xunits || a.units ≠ b.units

/-! ## Concrete byte files

Small hand-laid files exercising the decoders: a well-formed
one-spectrum collection (whose data row is `[1.0, NaN]`), a collection
whose two headers disagree on `nx`, a well-formed single spectrum, a
well-formed TGA/GC series, a TGA/GC series whose background header
carries the `"Background"` marker (long header), and a file whose only
signature occurrence sits at offset 0. -/

def fileSpgGood : List Nat :=
  [83, 112, 101, 99, 116, 114, 97, 108, 32, 68, 97, 116, 97, 32, 70, 105, 108, 101] ++ List.replicate 12 0 ++ [111, 114, 105, 103, 110, 97, 109, 101, 46, 115, 112, 103] ++ List.replicate 252 0 ++ [3] ++ List.replicate 9 0 ++ [2, 0, 144, 1] ++ List.replicate 12 0 ++ [3, 0, 188, 2, 0, 0, 8] ++ List.replicate 9 0 ++ [107, 0, 208, 2] ++ List.replicate 64 0 ++ [2, 0, 0, 0, 1, 0, 0, 0, 17, 0, 0, 0, 0, 0, 128, 63, 0, 0, 0, 64] ++ List.replicate 278 0 ++ [128, 63, 0, 0, 192, 127] ++ List.replicate 12 0 ++ [115, 112, 101, 99, 49] ++ List.replicate 255 0

def fileSpgBad : List Nat :=
  [83, 112, 101, 99, 116, 114, 97, 108, 32, 68, 97, 116, 97, 32, 70, 105, 108, 101] ++ List.replicate 12 0 ++ [98, 97, 100, 46, 115, 112, 103] ++ List.replicate 257 0 ++ [2] ++ List.replicate 9 0 ++ [2, 0, 144, 1] ++ List.replicate 12 0 ++ [2, 0, 108, 2] ++ List.replicate 80 0 ++ [2, 0, 0, 0, 1, 0, 0, 0, 17, 0, 0, 0, 0, 0, 128, 63, 0, 0, 0, 64] ++ List.replicate 200 0 ++ [3, 0, 0, 0, 1, 0, 0, 0, 17, 0, 0, 0, 0, 0, 128, 63, 0, 0, 0, 64] ++ List.replicate 216 0

def fileSpaGood : List Nat :=
  [83, 112, 101, 99, 116, 114, 97, 108, 32, 68, 97, 116, 97, 32, 70, 105, 108, 101] ++ List.replicate 12 0 ++ [111, 114, 105, 103, 115, 112, 97, 46, 115, 112, 97] ++ List.replicate 263 0 ++ [2, 0, 144, 1] ++ List.replicate 12 0 ++ [3, 0, 188, 2, 0, 0, 8] ++ List.replicate 77 0 ++ [2, 0, 0, 0, 1, 0, 0, 0, 17, 0, 0, 0, 0, 0, 128, 63, 0, 0, 0, 64] ++ List.replicate 278 0 ++ [128, 63, 0, 0, 0, 64]

def fileSrsTg : List Nat :=
  [83, 112, 101, 99, 116, 114, 97, 108, 32, 69, 120, 116, 101, 32, 70, 105, 108, 101] ++ List.replicate 18 0 ++ [2, 0, 0, 0, 1, 0, 0, 0, 17, 0, 0, 0, 0, 0, 128, 63, 0, 0, 0, 64] ++ List.replicate 128 0 ++ [2, 0, 0, 0, 24] ++ List.replicate 869 0 ++ [1] ++ List.replicate 241 0 ++ [2, 0, 0, 0, 24] ++ List.replicate 15 0 ++ [2, 0, 0, 0, 24] ++ List.replicate 141 0 ++ [128, 63, 0, 0, 0, 64]

/-- A TGA/GC signature at offset 0 and nowhere else. -/
def fileSigAtZero : List Nat := subTg ++ [1, 1, 1, 1, 1, 1]

/-- Upper-bound predicate used to analyse `f32Max`: a value that
cannot push the running maximum above `fin q`. -/
def bndHi (q : ℚ) (x : F32) : Prop := x = .inf true ∨ ∃ p, p ≤ q ∧ x = .fin p

/-- Lower-bound predicate used to analyse `f32Min`. -/
def bndLo (q : ℚ) (x : F32) : Prop := x = .inf false ∨ ∃ p, q ≤ p ∧ x = .fin p

/-- The reader state produced by decoding `fileSpgGood`
(`read_spg fileSpgGood (some "test.spg") 1700000000 []`). -/
def spgGoodState : ReaderState :=
  { data := some [[1065353216, 2143289344]]
    units := some "absorbance"
    title := some "absorbance"
    name := some "test"
    filename := some "test.spg"
    origin := "omnic"
    originalName := some "origname.spg"
    x := some (.linspaceF (.fin 1) (.fin 2) 2)
    xTitle := some "wavenumbers"
    xUnits := some "cm^-1"
    y := some (.ints [-2209075200])
    yTimestamp := some (.int (-2209075200))
    yTitle := some "acquisition timestamp (GMT)"
    yUnits := some "s"
    yLabels := some (.datesNames [-2209075200] ["spec1"])
    date := some 1700000000 }

/-- The reader state produced by decoding `fileSpaGood`
(`read_spa fileSpaGood none (some "test.spa") 100 []`). -/
def spaGoodState : ReaderState :=
  { data := some [[1065353216, 1073741824]]
    units := some "absorbance"
    title := some "absorbance"
    name := some "origspa.spa"
    filename := some "test.spa"
    origin := "omnic"
    originalName := some "origspa.spa"
    x := some (.linspaceF (.fin 1) (.fin 2) 2)
    xTitle := some "wavenumbers"
    xUnits := some "cm^-1"
    y := some (.intsAsF32 [-2209075200])
    yTimestamp := some (.int (-2209075200))
    yTitle := some "acquisition timestamp (GMT)"
    yUnits := some "s"
    yLabels := some (.datesNames [-2209075200] ["origspa.spa"])
    mask := some [[false, false]]
    date := some 100
    collectionLength := some (.div100 (.centisec 0))
    collectionLengthUnits := some "s"
    opticalVelocity := some (.fin 0)
    laserFrequency := some (.fin 0)
    laserFrequencyUnits := some "cm^-1" }

/-- The reader state produced by decoding `fileSrsTg`
(`read_srs fileSrsTg false false (some "test.srs") 100 []`). -/
def srsTgState : ReaderState :=
  { data := some [[1065353216, 1073741824]]
    units := some "absorbance"
    title := some "absorbance"
    name := some (String.mk [Char.ofNat 1])
    filename := some "test.srs"
    origin := "omnic"
    x := some (.linspaceF (.fin 1) (.fin 2) 2)
    xTitle := some "wavenumbers"
    xUnits := some "cm^-1"
    y := some (.linRound (.fin 0) (.fin 0) 1)
    yTimestamp := some (.minLin (.fin 0) (.fin 0) 1)
    yTitle := some "Time"
    yUnits := some "minute"
    yLabels := some (.names
      [String.mk [Char.ofNat 128, Char.ofNat 63, Char.ofNat 10, Char.ofNat 64]])
    mask := some [[false, false]]
    collectionLength := some (.raw (.minutesF (.fin 0)))
    collectionLengthUnits := some "s"
    laserFrequency := some (.fin 0)
    laserFrequencyUnits := some "cm^-1" }

/-! ## Lemmas: `np.ptp` and `set` cardinality -/

theorem le_foldl_max (t : List Nat) : ∀ a : Nat, a ≤ t.foldl max a := by
  induction t with
  | nil => intro a; exact le_refl a
  | cons h t ih =>
    intro a
    exact le_trans (le_max_left a h) (ih (max a h))

theorem mem_le_foldl_max (t : List Nat) :
    ∀ a x : Nat, x ∈ t → x ≤ t.foldl max a := by
  induction t with
  | nil => intro a x hx; cases hx
  | cons h t ih =>
    intro a x hx
    rcases List.mem_cons.mp hx with rfl | hx
    · exact le_trans (le_max_right a x) (le_foldl_max t (max a x))
    · exact ih (max a h) x hx

theorem mem_le_natMaxL {l : List Nat} {x : Nat} (hx : x ∈ l) : x ≤ natMaxL l := by
  cases l with
  | nil => cases hx
  | cons h t =>
    rcases List.mem_cons.mp hx with rfl | hx
    · exact le_foldl_max t x
    · exact mem_le_foldl_max t h x hx

theorem foldl_min_le (t : List Nat) : ∀ a : Nat, t.foldl min a ≤ a := by
  induction t with
  | nil => intro a; exact le_refl a
  | cons h t ih =>
    intro a
    exact le_trans (ih (min a h)) (min_le_left a h)

theorem foldl_min_le_mem (t : List Nat) :
    ∀ a x : Nat, x ∈ t → t.foldl min a ≤ x := by
  induction t with
  | nil => intro a x hx; cases hx
  | cons h t ih =>
    intro a x hx
    rcases List.mem_cons.mp hx with rfl | hx
    · exact le_trans (foldl_min_le t (min a x)) (min_le_right a x)
    · exact ih (min a h) x hx

theorem natMinL_le_mem {l : List Nat} {x : Nat} (hx : x ∈ l) : natMinL l ≤ x := by
  cases l with
  | nil => cases hx
  | cons h t =>
    rcases List.mem_cons.mp hx with rfl | hx
    · exact foldl_min_le t x
    · exact foldl_min_le_mem t h x hx

/-- `np.ptp` of a natural-number list is zero only when all members
are equal. -/
theorem ptpNat_zero_all_eq {l : List Nat} (h : ptpNat l = 0) :
    ∀ x ∈ l, ∀ y ∈ l, x = y := by
  intro x hx y hy
  have hmax : natMaxL l ≤ natMinL l := Nat.sub_eq_zero_iff_le.mp h
  have h1 : x ≤ y :=
    le_trans (mem_le_natMaxL hx) (le_trans hmax (natMinL_le_mem hy))
  have h2 : y ≤ x :=
    le_trans (mem_le_natMaxL hy) (le_trans hmax (natMinL_le_mem hx))
  exact le_antisymm h1 h2

theorem bndHi_maxF {q : ℚ} : ∀ {a b : F32}, bndHi q (maxF a b) → bndHi q a ∧ bndHi q b := by
  intro a b h
  match a, b with
  | .nan, _ =>
    rcases h with h | ⟨p, _, h⟩ <;> simp [maxF] at h
  | .inf nb, .nan =>
    rcases h with h | ⟨p, _, h⟩ <;> simp [maxF] at h
  | .fin r, .nan =>
    rcases h with h | ⟨p, _, h⟩ <;> simp [maxF] at h
  | .inf false, .inf nb =>
    rcases h with h | ⟨p, _, h⟩ <;> cases nb <;> simp [maxF] at h
  | .inf false, .fin r =>
    rcases h with h | ⟨p, _, h⟩ <;> simp [maxF] at h
  | .inf true, .inf false =>
    rcases h with h | ⟨p, _, h⟩ <;> simp [maxF] at h
  | .inf true, .inf true =>
    exact ⟨Or.inl rfl, Or.inl rfl⟩
  | .inf true, .fin r =>
    refine ⟨Or.inl rfl, ?_⟩
    simpa [maxF] using h
  | .fin r, .inf false =>
    rcases h with h | ⟨p, _, h⟩ <;> simp [maxF] at h
  | .fin r, .inf true =>
    refine ⟨?_, Or.inl rfl⟩
    simpa [maxF] using h
  | .fin r, .fin s =>
    rcases h with h | ⟨p, hp, h⟩
    · simp [maxF] at h
    · simp only [maxF, F32.fin.injEq] at h
      subst h
      exact ⟨Or.inr ⟨r, le_trans (le_max_left r s) hp, rfl⟩,
             Or.inr ⟨s, le_trans (le_max_right r s) hp, rfl⟩⟩

theorem bndLo_minF {q : ℚ} : ∀ {a b : F32}, bndLo q (minF a b) → bndLo q a ∧ bndLo q b := by
  intro a b h
  match a, b with
  | .nan, _ =>
    rcases h with h | ⟨p, _, h⟩ <;> simp [minF] at h
  | .inf nb, .nan =>
    rcases h with h | ⟨p, _, h⟩ <;> simp [minF] at h
  | .fin r, .nan =>
    rcases h with h | ⟨p, _, h⟩ <;> simp [minF] at h
  | .inf true, .inf nb =>
    rcases h with h | ⟨p, _, h⟩ <;> cases nb <;> simp [minF] at h
  | .inf true, .fin r =>
    rcases h with h | ⟨p, _, h⟩ <;> simp [minF] at h
  | .inf false, .inf true =>
    rcases h with h | ⟨p, _, h⟩ <;> simp [minF] at h
  | .inf false, .inf false =>
    exact ⟨Or.inl rfl, Or.inl rfl⟩
  | .inf false, .fin r =>
    refine ⟨Or.inl rfl, ?_⟩
    simpa [minF] using h
  | .fin r, .inf true =>
    rcases h with h | ⟨p, _, h⟩ <;> simp [minF] at h
  | .fin r, .inf false =>
    refine ⟨?_, Or.inl rfl⟩
    simpa [minF] using h
  | .fin r, .fin s =>
    rcases h with h | ⟨p, hp, h⟩
    · simp [minF] at h
    · simp only [minF, F32.fin.injEq] at h
      subst h
      exact ⟨Or.inr ⟨r, le_trans hp (min_le_left r s), rfl⟩,
             Or.inr ⟨s, le_trans hp (min_le_right r s), rfl⟩⟩

theorem foldl_maxF_bnd {q : ℚ} (t : List F32) :
    ∀ a : F32, t.foldl maxF a = .fin q →
      bndHi q a ∧ ∀ x ∈ t, bndHi q x := by
  induction t with
  | nil =>
    intro a h
    refine ⟨Or.inr ⟨q, le_refl q, h⟩, ?_⟩
    intro x hx; cases hx
  | cons h t ih =>
    intro a hfold
    have step : List.foldl maxF a (h :: t) = List.foldl maxF (maxF a h) t := rfl
    rw [step] at hfold
    obtain ⟨hacc, hmem⟩ := ih (maxF a h) hfold
    obtain ⟨ha, hh⟩ := bndHi_maxF hacc
    refine ⟨ha, ?_⟩
    intro x hx
    rcases List.mem_cons.mp hx with rfl | hx
    · exact hh
    · exact hmem x hx

theorem foldl_minF_bnd {q : ℚ} (t : List F32) :
    ∀ a : F32, t.foldl minF a = .fin q →
      bndLo q a ∧ ∀ x ∈ t, bndLo q x := by
  induction t with
  | nil =>
    intro a h
    refine ⟨Or.inr ⟨q, le_refl q, h⟩, ?_⟩
    intro x hx; cases hx
  | cons h t ih =>
    intro a hfold
    have step : List.foldl minF a (h :: t) = List.foldl minF (minF a h) t := rfl
    rw [step] at hfold
    obtain ⟨hacc, hmem⟩ := ih (minF a h) hfold
    obtain ⟨ha, hh⟩ := bndLo_minF hacc
    refine ⟨ha, ?_⟩
    intro x hx
    rcases List.mem_cons.mp hx with rfl | hx
    · exact hh
    · exact hmem x hx

/-- When `np.ptp(l) != 0` is false, every member of `l` is one and the
same finite value. -/
theorem ptpIsZero_all_fin {l : List F32} (h : ptpIsZero l = true) :
    ∃ q : ℚ, ∀ x ∈ l, x = .fin q := by
  unfold ptpIsZero at h
  cases hmax : f32Max l with
  | nan => rw [hmax] at h; simp at h
  | inf nb => rw [hmax] at h; simp at h
  | fin a =>
    cases hmin : f32Min l with
    | nan => rw [hmax, hmin] at h; simp at h
    | inf nb => rw [hmax, hmin] at h; simp at h
    | fin b =>
      rw [hmax, hmin] at h
      simp only [beq_iff_eq] at h
      subst h
      cases l with
      | nil => simp [f32Max] at hmax
      | cons h0 t =>
        obtain ⟨hacc, hmem⟩ := foldl_maxF_bnd t h0 hmax
        obtain ⟨hacc', hmem'⟩ := foldl_minF_bnd t h0 hmin
        refine ⟨a, ?_⟩
        intro x hx
        have hxhi : bndHi a x := by
          rcases List.mem_cons.mp hx with rfl | hx
          · exact hacc
          · exact hmem x hx
        have hxlo : bndLo a x := by
          rcases List.mem_cons.mp hx with rfl | hx
          · exact hacc'
          · exact hmem' x hx
        rcases hxhi with rfl | ⟨p, hp, rfl⟩
        · rcases hxlo with hlo | ⟨p, _, hlo⟩ <;> simp at hlo
        · rcases hxlo with hlo | ⟨r, hr, hlo⟩
          · simp at hlo
          · simp only [F32.fin.injEq] at hlo
            subst hlo
            exact congrArg F32.fin (le_antisymm hp hr)

/-- A list whose deduplication has length 1 has all members equal. -/
theorem dedup_len_one_all_eq {α : Type} [DecidableEq α] {l : List α}
    (h : l.dedup.length = 1) : ∀ x ∈ l, ∀ y ∈ l, x = y := by
  intro x hx y hy
  obtain ⟨a, ha⟩ := List.length_eq_one.mp h
  have hxd : x ∈ l.dedup := List.mem_dedup.mpr hx
  have hyd : y ∈ l.dedup := List.mem_dedup.mpr hy
  rw [ha] at hxd hyd
  simp only [List.mem_singleton] at hxd hyd
  rw [hxd, hyd]

/-! ## Lemmas: the `_read_spg` consistency gate -/

theorem spgCheck_ok {infos : List HeaderInfo} (h : spgCheck infos = .ok ()) :
    ptpNat (infos.map (·.nx)) = 0 ∧
    ptpIsZero (infos.map (·.firstx)) = true ∧
    ptpIsZero (infos.map (·.lastx)) = true ∧
    (infos.map (·.xunits)).dedup.length = 1 ∧
    (infos.map (·.units)).dedup.length = 1 := by
  unfold spgCheck at h
  split_ifs at h with h1 h2 h3 h4 h5
  · exact ⟨Decidable.not_not.mp h1, by simpa using h2, by simpa using h3,
      Decidable.not_not.mp h4, Decidable.not_not.mp h5⟩

theorem spgCheck_error_kind {infos : List HeaderInfo} {e : OmnicError}
    (h : spgCheck infos = .error e) : ∃ msg, e = .inconsistentDataset msg := by
  unfold spgCheck at h
  split_ifs at h <;> exact ⟨_, (Except.error.inj h).symm⟩

theorem headersDisagree_check_fails {infos : List HeaderInfo}
    (hd : headersDisagreeB infos = true) : spgCheck infos ≠ .ok () := by
  intro hok
  obtain ⟨h1, h2, h3, h4, h5⟩ := spgCheck_ok hok
  unfold headersDisagreeB at hd
  rw [List.any_eq_true] at hd
  obtain ⟨a, ha, hd⟩ := hd
  rw [List.any_eq_true] at hd
  obtain ⟨b, hb, hd⟩ := hd
  simp only [Bool.or_eq_true, decide_eq_true_eq, Bool.not_eq_true'] at hd
  rcases hd with ((((hd | hd) | hd) | hd) | hd)
  · exact hd (ptpNat_zero_all_eq h1 _ (List.mem_map_of_mem _ ha) _
      (List.mem_map_of_mem _ hb))
  · obtain ⟨q, hq⟩ := ptpIsZero_all_fin h2
    have hqa := hq _ (List.mem_map_of_mem (fun i => i.firstx) ha)
    have hqb := hq _ (List.mem_map_of_mem (fun i => i.firstx) hb)
    rw [hqa, hqb] at hd
    simp [f32EqvB] at hd
  · obtain ⟨q, hq⟩ := ptpIsZero_all_fin h3
    have hqa := hq _ (List.mem_map_of_mem (fun i => i.lastx) ha)
    have hqb := hq _ (List.mem_map_of_mem (fun i => i.lastx) hb)
    rw [hqa, hqb] at hd
    simp [f32EqvB] at hd
  · exact hd (dedup_len_one_all_eq h4 _ (List.mem_map_of_mem _ ha) _
      (List.mem_map_of_mem _ hb))
  · exact hd (dedup_len_one_all_eq h5 _ (List.mem_map_of_mem _ ha) _
      (List.mem_map_of_mem _ hb))

theorem read_spg_check_error {file : List Nat} {fname : Option String} {now : Nat}
    {shared : List HistEntry} {infos : List HeaderInfo} {keys : List Nat}
    {lg : List String} {e : OmnicError}
    (hscan : spgScan file = (.ok (infos, keys), lg))
    (hchk : spgCheck infos = .error e) :
    read_spg file fname now shared = ⟨.error e, shared, false, lg⟩ := by
  simp only [read_spg, hscan, hchk]

theorem read_spg_ok_inv {file : List Nat} {fname : Option String} {now : Nat}
    {shared : List HistEntry} {st : ReaderState}
    (h : (read_spg file fname now shared).result = .ok st) :
    ∃ infos keys lg, spgScan file = (.ok (infos, keys), lg) ∧
      spgCheck infos = .ok () ∧
      ∃ i0 rest rows titles tss, infos = i0 :: rest ∧
        spgDataLoop file (keyPositions keys 3) i0.nx infos.length = .ok rows ∧
        spgTitlesLoop file (keyPositions keys 107) infos.length = .ok (titles, tss) ∧
        read_spg file fname now shared =
          ⟨.ok { data := some rows
                 units := i0.units
                 title := some i0.title
                 name := some (pathStem (resolvedName fname (readbtextD file 30 256)))
                 filename := some (resolvedName fname (readbtextD file 30 256))
                 origin := "omnic"
                 originalName := some (readbtextD file 30 256)
                 x := some (.linspaceF i0.firstx i0.lastx i0.nx)
                 xTitle := some i0.xtitle
                 xUnits := i0.xunits
                 y := some (.ints tss)
                 yTimestamp := some (.int (intMinL tss))
                 yTitle := some "acquisition timestamp (GMT)"
                 yUnits := some "s"
                 yLabels := some (.datesNames tss titles)
                 date := some now },
           shared ++ [(now, .s ("Imported from spg file " ++
             pathName (resolvedName fname (readbtextD file 30 256)) ++ "."))],
           true, lg⟩ := by
  simp only [read_spg] at h
  split at h
  next e lg hscan => simp at h
  next infos keys lg hscan =>
    split at h
    next e hchk => simp at h
    next u hchk =>
      split at h
      · simp at h
      next i0 rest =>
        split at h
        next e hdata => simp at h
        next rows hdata =>
          split at h
          next e htitles => simp at h
          next titles tss htitles =>
            refine ⟨i0 :: rest, keys, lg, hscan, ?_, i0, rest, rows, titles, tss,
              rfl, hdata, htitles, ?_⟩
            · cases u; exact hchk
            · simp only [read_spg, hscan, hchk, hdata, htitles]

/-- **C1.** For every spg collection decode: whenever any two decoded
spectrum headers disagree on axis length (`nx`), first-x, last-x,
x-axis unit or data unit, the decode fails with `InconsistentDataset`
and produces no dataset state; and every decode that succeeds
satisfies `ptp(nx) == 0`, `ptp(firstx) == 0`, `ptp(lastx) == 0`,
exactly one distinct x-axis unit and exactly one distinct data
unit. -/
theorem C1_spg_consistency (file : List Nat) (fname : Option String) (now : Nat)
    (shared : List HistEntry) {infos : List HeaderInfo} {keys : List Nat}
    {lg : List String} (hscan : spgScan file = (.ok (infos, keys), lg)) :
    (headersDisagreeB infos = true →
      ∃ msg, (read_spg file fname now shared).result =
        .error (.inconsistentDataset msg)) ∧
    (∀ st, (read_spg file fname now shared).result = .ok st →
      ptpNat (infos.map (·.nx)) = 0 ∧
      ptpIsZero (infos.map (·.firstx)) = true ∧
      ptpIsZero (infos.map (·.lastx)) = true ∧
      (infos.map (·.xunits)).dedup.length = 1 ∧
      (infos.map (·.units)).dedup.length = 1) := by
  constructor
  · intro hd
    have hne := headersDisagree_check_fails hd
    cases hchk : spgCheck infos with
    | error e =>
      obtain ⟨msg, rfl⟩ := spgCheck_error_kind hchk
      exact ⟨msg, by rw [read_spg_check_error hscan hchk]⟩
    | ok u => cases u; exact absurd hchk hne
  · intro st h
    obtain ⟨infos', keys', lg', hscan', hchk, -⟩ := read_spg_ok_inv h
    rw [hscan] at hscan'
    simp only [Prod.mk.injEq, Except.ok.injEq] at hscan'
    obtain ⟨⟨hi, -⟩, -⟩ := hscan'
    rw [hi]
    exact spgCheck_ok hchk

/-- Witness for C1: the two-spectrum collection whose headers disagree
on `nx` fails with `InconsistentDataset`, and the consistency facts
hold for the decoded headers of the well-formed collection. -/
theorem C1_witness :
    (∃ msg, (read_spg fileSpgBad (some "bad.spg") 0 []).result =
      .error (.inconsistentDataset msg)) ∧
    (∃ infos keys lg, spgScan fileSpgGood = (.ok (infos, keys), lg) ∧
      ptpNat (infos.map (·.nx)) = 0 ∧ ptpIsZero (infos.map (·.firstx)) = true ∧
      ptpIsZero (infos.map (·.lastx)) = true ∧
      (infos.map (·.xunits)).dedup.length = 1 ∧
      (infos.map (·.units)).dedup.length = 1) := by
  constructor
  · exact (C1_spg_consistency fileSpgBad (some "bad.spg") 0 [] rfl).1 (by decide)
  · obtain ⟨h1, h2, h3, h4, h5⟩ :=
      (C1_spg_consistency fileSpgGood (some "test.spg") 1700000000 [] rfl).2
        { data := some [[1065353216, 2143289344]]
          units := some "absorbance"
          title := some "absorbance"
          name := some "test"
          filename := some "test.spg"
          origin := "omnic"
          originalName := some "origname.spg"
          x := some (.linspaceF (.fin 1) (.fin 2) 2)
          xTitle := some "wavenumbers"
          xUnits := some "cm^-1"
          y := some (.ints [-2209075200])
          yTimestamp := some (.int (-2209075200))
          yTitle := some "acquisition timestamp (GMT)"
          yUnits := some "s"
          yLabels := some (.datesNames [-2209075200] ["spec1"])
          date := some 1700000000 } (by decide)
    exact ⟨_, _, _, rfl, h1, h2, h3, h4, h5⟩

/-! ## Lemmas: the `_readbtext` pair-reading loop -/

theorem pairLoop_found (file : List Nat) :
    ∀ k fuel pos, k < fuel →
      (∀ j, j < k → file.get? (pos + 2 * j) ≠ some 0) →
      file.get? (pos + 2 * k) = some 0 →
      pairLoop file fuel pos =
        .ok ((List.range k).filterMap fun j => file.get? (pos + 2 * j + 1)) := by
  intro k
  induction k with
  | zero =>
    intro fuel pos hf h1 h2
    cases fuel with
    | zero => exact absurd hf (by omega)
    | succ n =>
      rw [show pos + 2 * 0 = pos from by ring] at h2
      simp only [pairLoop, h2]
      simp
  | succ k ih =>
    intro fuel pos hf h1 h2
    cases fuel with
    | zero => exact absurd hf (by omega)
    | succ n =>
      have hlen : pos + 2 * (k + 1) < file.length := by
        rcases List.get?_eq_some.mp h2 with ⟨h, _⟩
        exact h
      have hpos : pos < file.length := by omega
      have hpos1 : pos + 1 < file.length := by omega
      obtain ⟨b, hb⟩ : ∃ b, file.get? pos = some b :=
        ⟨_, List.get?_eq_get hpos⟩
      have hbne : b ≠ 0 := by
        intro h0
        refine h1 0 (Nat.succ_pos k) ?_
        rw [show pos + 2 * 0 = pos from by ring, hb, h0]
      obtain ⟨b', rfl⟩ := Nat.exists_eq_succ_of_ne_zero hbne
      obtain ⟨c, hc⟩ : ∃ c, file.get? (pos + 1) = some c :=
        ⟨_, List.get?_eq_get hpos1⟩
      simp only [pairLoop, hb, hc]
      rw [ih n (pos + 2) (by omega)
        (fun j hj => by
          simpa [show pos + 2 + 2 * j = pos + 2 * (j + 1) from by ring]
            using h1 (j + 1) (by omega))
        (by rw [show pos + 2 + 2 * k = pos + 2 * (k + 1) from by ring]; exact h2)]
      have harg : (fun j => file.get? (pos + 2 * Nat.succ j + 1)) =
          (fun j => file.get? (pos + 2 + 2 * j + 1)) := by
        funext j
        congr 1
        omega
      rw [List.range_succ_eq_map, List.filterMap_cons, List.filterMap_map]
      simp only [Function.comp_def]
      rw [show pos + 2 * 0 + 1 = pos + 1 from by ring, hc, harg]
      rfl

theorem pairLoop_diverge (file : List Nat) :
    ∀ fuel pos, (∀ k, file.get? (pos + 2 * k) ≠ some 0) →
      pairLoop file fuel pos = .error .diverge := by
  intro fuel
  induction fuel with
  | zero => intro pos _; rfl
  | succ n ih =>
    intro pos h
    have hb0 : file.get? pos ≠ some 0 := by
      have := h 0
      rwa [show pos + 2 * 0 = pos from by ring] at this
    cases hb : file.get? pos with
    | none => simp only [pairLoop, hb]
    | some b =>
      have hbne : b ≠ 0 := fun h0 => hb0 (by rw [hb, h0])
      obtain ⟨b', rfl⟩ := Nat.exists_eq_succ_of_ne_zero hbne
      cases hc : file.get? (pos + 1) with
      | none => simp only [pairLoop, hb, hc]
      | some c =>
        simp only [pairLoop, hb, hc]
        rw [ih (pos + 2)
          (fun k => by
            simpa [show pos + 2 + 2 * k = pos + 2 * (k + 1) from by ring]
              using h (k + 1))]
        rfl

/-- **C4 (amended).**  For every offset: the fixed-length read returns
the `size` bytes at the offset (all of them when the file is long
enough), collapsed / stripped / decoded by `textProcess`; the
terminated read (`size = None`) checks every second byte against NUL
and accumulates the bytes in between, so it returns the bytes at odd
relative offsets below the first NUL at an even relative offset, and
it never terminates (modelled as `diverge`) when no even-offset NUL
exists before the end of the file. -/
theorem C4_readbtext (file : List Nat) :
    (∀ pos n : Nat, pos + n ≤ file.length →
      readbtext file (pos : Int) (some n) =
        .ok (textProcess ((file.drop pos).take n)) ∧
      ((file.drop pos).take n).length = n) ∧
    (∀ pos k : Nat, (∀ j, j < k → file.get? (pos + 2 * j) ≠ some 0) →
      file.get? (pos + 2 * k) = some 0 →
      readbtext file (pos : Int) none =
        .ok (textProcess ((List.range k).filterMap
          fun j => file.get? (pos + 2 * j + 1)))) ∧
    (∀ pos : Nat, (∀ k, file.get? (pos + 2 * k) ≠ some 0) →
      readbtext file (pos : Int) none = .error .diverge) := by
  refine ⟨fun pos n h => ⟨?_, ?_⟩, fun pos k h1 h2 => ?_, fun pos h => ?_⟩
  · simp only [readbtext, readRaw]
    rw [if_neg (by exact Int.not_lt.mpr (Int.natCast_nonneg pos))]
    rw [Int.toNat_natCast]
  · simp only [List.length_take, List.length_drop]
    omega
  · have hk : k < file.length + 1 := by
      rcases List.get?_eq_some.mp h2 with ⟨hlt, _⟩
      omega
    simp only [readbtext]
    rw [if_neg (by exact Int.not_lt.mpr (Int.natCast_nonneg pos))]
    rw [Int.toNat_natCast, pairLoop_found file k (file.length + 1) pos hk h1 h2]
    rfl
  · simp only [readbtext]
    rw [if_neg (by exact Int.not_lt.mpr (Int.natCast_nonneg pos))]
    rw [Int.toNat_natCast, pairLoop_diverge file (file.length + 1) pos h]
    rfl

/-- Counterexample for C4 as stated: on the bytes `b"AB\x00"` the
terminated read returns `"B"` (it drops the byte `A` used as the NUL
check), not the claimed `"AB"` (all raw bytes up to the first NUL,
processed). -/
theorem C4_counterexample :
    readbtext [65, 66, 0] 0 none = .ok "B" ∧
    textProcess [65, 66] = "AB" ∧ ("B" : String) ≠ "AB" :=
  ⟨rfl, rfl, by decide⟩

/-- Witness for C4: the fixed-size branch applied to the same bytes
returns all of them, decoded as `"AB"`. -/
theorem C4_witness :
    (0 : Nat) + 3 ≤ ([65, 66, 0] : List Nat).length ∧
    readbtext [65, 66, 0] ((0 : Nat) : Int) (some 3) = .ok "AB" := by
  refine ⟨by decide, ?_⟩
  rw [(C4_readbtext [65, 66, 0]).1 0 3 (by decide) |>.1]
  rfl

/-- **C7.** Appending one text entry to a fresh history log and
rendering yields exactly one entry: the ISO-8601 UTC timestamp
(space separator, seconds precision), the separator `"> "`, and the
text with its first character uppercased and the rest lowercased;
assigning a nonempty list replaces the log with a single entry holding
the list's first element, and assigning an empty list clears the
log. -/
theorem C7_history_formatting :
    (∀ (now : Nat) (text : String),
      historyRender (historySet [] now (.str text)) =
        [isoUTC now ++ "> " ++ pythonCapitalize text]) ∧
    (∀ (cur : List HistEntry) (now : Nat) (a : String) (rest : List String),
      historySet cur now (.list (a :: rest)) = [(now, .s a)]) ∧
    (∀ (cur : List HistEntry) (now : Nat),
      historySet cur now (.list []) = []) := by
  refine ⟨fun now text => ?_, fun _ _ _ _ => rfl, fun _ _ => rfl⟩
  simp [historySet, historyRender, evalStr]

/-- **C2.** Evaluating the `ddr` wrapper on a well-formed spa-format
byte source: the relabelling statement
`self.history[-1] = "Imported from ddr file(s)"` mutates the temporary
list returned by the `history` getter, so the stored log still renders
with the spa provenance label, not the ddr one the code means to
install. -/
theorem C2_ddr_label_noop :
    historyRender (read_ddr fileSpaGood none (some "test.ddr") 1700000000 []).shared =
      ["2023-11-14 22:13:20+00:00> Imported from spa file(s)"] ∧
    ("2023-11-14 22:13:20+00:00> Imported from spa file(s)" : String) ≠
      "2023-11-14 22:13:20+00:00> Imported from ddr file(s)" :=
  ⟨by decide, by decide⟩

/-- **C10.** The history store is class-level state shared across
instances: decoding two spa sources in sequence (threading the shared
log) leaves the second reader's rendered history containing the first
decode's provenance entry followed by its own, and neither decode
creates an instance-level history (`instHistory` stays `none`), so the
getter always reads the shared log. -/
theorem C10_shared_class_history :
    historyRender (read_spa fileSpaGood none (some "b.spa") 200
        (read_spa fileSpaGood none (some "a.spa") 100 []).shared).shared =
      ["1970-01-01 00:01:40+00:00> Imported from spa file(s)",
       "1970-01-01 00:03:20+00:00> Imported from spa file(s)"] ∧
    ((read_spa fileSpaGood none (some "b.spa") 200
        (read_spa fileSpaGood none (some "a.spa") 100 []).shared).result.map
      (fun st => st.instHistory)) = .ok none ∧
    ((read_spa fileSpaGood none (some "a.spa") 100 []).result.map
      (fun st => st.instHistory)) = .ok none :=
  ⟨by decide, rfl, rfl⟩

/-! ## Lemmas: the `_read_spa` tag scan -/

/-- **C3 (amended).**  For every successful spg collection decode, the
column axis is `linspace(firstx, lastx, nx)` of the first (shared)
header, and the row axis is the list of **absolute** per-spectrum
acquisition timestamps in seconds since the Unix epoch (each one
`epoch1899 +` the raw header seconds, as produced by the title loop);
the earliest timestamp is stored separately in `y_timestamp`.  The
subtraction making the axis earliest-relative is commented out in the
source. -/
theorem C3_spg_axes (file : List Nat) (fname : Option String) (now : Nat)
    (shared : List HistEntry) {st : ReaderState}
    (h : (read_spg file fname now shared).result = .ok st) :
    ∃ infos keys lg i0 rest titles tss,
      spgScan file = (.ok (infos, keys), lg) ∧ infos = i0 :: rest ∧
      spgTitlesLoop file (keyPositions keys 107) infos.length = .ok (titles, tss) ∧
      st.x = some (.linspaceF i0.firstx i0.lastx i0.nx) ∧
      st.y = some (.ints tss) ∧
      st.yTimestamp = some (.int (intMinL tss)) := by
  obtain ⟨infos, keys, lg, hscan, hchk, i0, rest, rows, titles, tss, hinfos,
    hdata, htitles, heq⟩ := read_spg_ok_inv h
  have hres := congrArg DecodeOut.result heq
  rw [h] at hres
  obtain rfl := Except.ok.inj hres
  exact ⟨infos, keys, lg, i0, rest, titles, tss, hscan, hinfos, htitles,
    rfl, rfl, rfl⟩

/-- Counterexample for C3 as stated: decoding the one-spectrum
collection (raw timestamp 0, i.e. 1899-12-31T00:00:00Z) gives the row
axis `[-2209075200]` — the absolute timestamp — where the claimed
earliest-relative convention would require `[0]`. -/
theorem C3_counterexample :
    ((read_spg fileSpgGood (some "test.spg") 1700000000 []).result.map
      (fun st => st.y)) = .ok (some (.ints [-2209075200])) ∧
    some (YAxis.ints [-2209075200]) ≠ some (YAxis.ints [0]) :=
  ⟨by decide, by decide⟩

/-- Witness for C3: the amended statement instantiated on the
well-formed collection. -/
theorem C3_witness :
    ∃ infos keys lg i0 rest titles tss,
      spgScan fileSpgGood = (.ok (infos, keys), lg) ∧ infos = i0 :: rest ∧
      spgTitlesLoop fileSpgGood (keyPositions keys 107) infos.length =
        .ok (titles, tss) ∧
      spgGoodState.x = some (.linspaceF i0.firstx i0.lastx i0.nx) ∧
      spgGoodState.y = some (.ints tss) ∧
      spgGoodState.yTimestamp = some (.int (intMinL tss)) :=
  @C3_spg_axes fileSpgGood (some "test.spg") 1700000000 [] spgGoodState
    (by decide)

/-! ## Lemmas: finalization shapes of the three decoders -/

theorem spaTail_closed (ifg : Option String) (spaName : String) (ts : Nat)
    (st : SpaScanState) (fname : Option String) (now : Nat)
    (shared : List HistEntry) (lg : List String) :
    (spaTail ifg spaName ts st fname now shared lg).closed = true := by
  unfold spaTail
  rcases spaSelection ifg st with _ | row
  · rfl
  · rcases st.info with _ | info
    · rfl
    · rfl

theorem spaTail_ok_data {ifg : Option String} {spaName : String} {ts : Nat}
    {st : SpaScanState} {fname : Option String} {now : Nat}
    {shared : List HistEntry} {lg : List String} {st' : ReaderState}
    {d : List (List Nat)}
    (h : (spaTail ifg spaName ts st fname now shared lg).result = .ok st')
    (hd : st'.data = some d) :
    st'.mask = some (isNanMatrix d) ∧ st'.date = some now ∧
    ∃ rest, (spaTail ifg spaName ts st fname now shared lg).shared =
      shared ++ (now, EVal.s "Imported from spa file(s)") :: rest := by
  unfold spaTail at h ⊢
  cases hI : spaSelection ifg st with
  | none => rw [hI] at h; simp at h
  | some row =>
    rw [hI] at h
    cases hInfo : st.info with
    | none => rw [hInfo] at h; simp at h
    | some info =>
      rw [hInfo] at h
      have hst : st' = _ := (Except.ok.inj h).symm
      subst hst
      refine ⟨?_, ?_, ?_⟩
      · split at hd <;> (obtain rfl := Option.some.inj hd; split <;> rfl)
      · split <;> rfl
      · cases st.history with
        | none => exact ⟨[], rfl⟩
        | some hx => exact ⟨[(now, EVal.s
            ("Data processing history from Omnic :\n------------------------------------\n"
              ++ hx))], by simp⟩

theorem srsFinish_ok_data {res : Except OmnicError SrsPhase × List String}
    {revX : Bool} {fname : Option String} {now : Nat}
    {shared : List HistEntry} {st' : ReaderState} {d : List (List Nat)}
    (h : (srsFinish res revX fname now shared).result = .ok st')
    (hd : st'.data = some d) :
    st'.mask = some (isNanMatrix d) ∧ st'.date = none ∧
    (∃ pre, (srsFinish res revX fname now shared).shared =
      shared ++ pre ++ [(now, EVal.s (" imported from srs file " ++
        resolvedName fname "unknown"))]) ∧
    (srsFinish res revX fname now shared).closed = true := by
  obtain ⟨r, lg⟩ := res
  cases r with
  | error e => exact absurd h (by simp [srsFinish])
  | ok phase =>
    cases phase with
    | nullResult =>
      have hst : st' = _ := (Except.ok.inj h).symm
      subst hst
      exact absurd hd (by simp [ReaderState.data])
    | series info names rows hist =>
      have h2 : (srsTailSeries info names rows hist revX fname now shared lg).result
          = .ok st' := h
      unfold srsTailSeries at h2
      cases hsrs : info.srs with
      | none => rw [hsrs] at h2; exact absurd h2 (by simp)
      | some ex =>
        rw [hsrs] at h2
        have hst : st' = _ := (Except.ok.inj h2).symm
        subst hst
        obtain rfl := Option.some.inj hd
        refine ⟨rfl, rfl, ?_, ?_⟩
        · cases hist with
          | none => exact ⟨[], by simp [srsFinish, srsTailSeries, hsrs]⟩
          | some hx => exact ⟨[(now, EVal.tup ("Omnic " ++ sglq ++
              "DATA PROCESSING HISTORY" ++ sglq ++
              " :\n--------------------------------\n" ++ hx))],
              by simp [srsFinish, srsTailSeries, hsrs]⟩
        · simp [srsFinish, srsTailSeries, hsrs]
    | bgShort info row =>
      have h2 : (srsTailBg info row fname now shared lg).result = .ok st' := h
      unfold srsTailBg at h2
      have hst : st' = _ := (Except.ok.inj h2).symm
      subst hst
      obtain rfl := Option.some.inj hd
      exact ⟨rfl, rfl, ⟨[], by simp [srsFinish, srsTailBg]⟩,
        by simp [srsFinish, srsTailBg]⟩

theorem read_spa_ok_inv {file : List Nat} {ifg fname : Option String}
    {now : Nat} {shared : List HistEntry} {st : ReaderState}
    (h : (read_spa file ifg fname now shared).result = .ok st) :
    (st = {} ∧ (read_spa file ifg fname now shared).closed = true) ∨
    ∃ spaName ts st0 lg, read_spa file ifg fname now shared =
      spaTail ifg spaName ts st0 fname now shared lg := by
  simp only [read_spa] at h
  split at h
  next e lg hphase => simp at h
  next spaName ts st0 lg hphase =>
    split at h
    next hcond =>
      left
      refine ⟨(Except.ok.inj h).symm, ?_⟩
      simp only [read_spa, hphase]
      rw [if_pos hcond]
    next hcond =>
      right
      refine ⟨spaName, ts, st0, lg, ?_⟩
      simp only [read_spa, hphase]
      rw [if_neg hcond]

theorem read_srs_ok_inv {file : List Nat} {bg revX : Bool}
    {fname : Option String} {now : Nat} {shared : List HistEntry}
    {st : ReaderState}
    (h : (read_srs file bg revX fname now shared).result = .ok st) :
    ∃ res, read_srs file bg revX fname now shared =
        srsFinish res revX fname now shared ∧
      (srsFinish res revX fname now shared).result = .ok st := by
  simp only [read_srs] at h
  split at h
  next p hp => exact ⟨srsRapid file p bg, by simp only [read_srs, hp], h⟩
  next hp =>
    split at h
    next p hq =>
      exact ⟨srsHigh file p bg, by simp only [read_srs, hp, hq], h⟩
    next hq =>
      split at h
      next p hr =>
        exact ⟨srsTg file p bg, by simp only [read_srs, hp, hq, hr], h⟩
      next hr => simp at h

theorem srsTailSeries_closed_iff (info : HeaderInfo) (names : List String)
    (rows : List (List Nat)) (hist : Option String) (revX : Bool)
    (fname : Option String) (now : Nat) (shared : List HistEntry)
    (lg : List String) :
    (srsTailSeries info names rows hist revX fname now shared lg).closed = true ↔
    ∃ st d, (srsTailSeries info names rows hist revX fname now shared lg).result
        = .ok st ∧ st.data = some d := by
  unfold srsTailSeries
  cases info.srs with
  | none => simp
  | some ex => exact ⟨fun _ => ⟨_, _, rfl, rfl⟩, fun _ => rfl⟩

theorem srsFinish_closed_iff (res : Except OmnicError SrsPhase × List String)
    (revX : Bool) (fname : Option String) (now : Nat)
    (shared : List HistEntry) :
    (srsFinish res revX fname now shared).closed = true ↔
    ∃ st d, (srsFinish res revX fname now shared).result = .ok st ∧
      st.data = some d := by
  obtain ⟨r, lg⟩ := res
  cases r with
  | error e => simp [srsFinish]
  | ok phase =>
    cases phase with
    | nullResult => simp [srsFinish, ReaderState.data]
    | series info names rows hist =>
      exact srsTailSeries_closed_iff info names rows hist revX fname now shared lg
    | bgShort info row => exact ⟨fun _ => ⟨_, _, rfl, rfl⟩, fun _ => rfl⟩
/-- **C8 (amended).**  The three finalizations share only part of the
claimed common shape.  spa: mask = elementwise is-NaN of the data,
creation date stamped with utcnow, provenance line appended.  spg:
date stamped and provenance line appended, but **no mask is set**
(`mask` stays `None`).  srs: mask set and provenance line appended,
but **no creation date is stamped** (`date` stays `None`). -/
theorem C8_finalization :
    (∀ (file : List Nat) (fname : Option String) (now : Nat)
        (shared : List HistEntry) (st : ReaderState),
      (read_spg file fname now shared).result = .ok st →
      st.mask = none ∧ st.date = some now ∧
      (read_spg file fname now shared).shared = shared ++
        [(now, EVal.s ("Imported from spg file " ++
          pathName (resolvedName fname (readbtextD file 30 256)) ++ "."))]) ∧
    (∀ (file : List Nat) (ifg fname : Option String) (now : Nat)
        (shared : List HistEntry) (st : ReaderState) (d : List (List Nat)),
      (read_spa file ifg fname now shared).result = .ok st →
      st.data = some d →
      st.mask = some (isNanMatrix d) ∧ st.date = some now ∧
      ∃ rest, (read_spa file ifg fname now shared).shared =
        shared ++ (now, EVal.s "Imported from spa file(s)") :: rest) ∧
    (∀ (file : List Nat) (bg revX : Bool) (fname : Option String)
        (now : Nat) (shared : List HistEntry) (st : ReaderState)
        (d : List (List Nat)),
      (read_srs file bg revX fname now shared).result = .ok st →
      st.data = some d →
      st.mask = some (isNanMatrix d) ∧ st.date = none ∧
      ∃ pre, (read_srs file bg revX fname now shared).shared =
        shared ++ pre ++ [(now, EVal.s (" imported from srs file " ++
          resolvedName fname "unknown"))]) := by
  refine ⟨?_, ?_, ?_⟩
  · intro file fname now shared st h
    obtain ⟨infos, keys, lg, hscan, hchk, i0, rest, rows, titles, tss, hinfos,
      hdata, htitles, heq⟩ := read_spg_ok_inv h
    have hres := congrArg DecodeOut.result heq
    rw [h] at hres
    obtain rfl := Except.ok.inj hres
    exact ⟨rfl, rfl, congrArg DecodeOut.shared heq⟩
  · intro file ifg fname now shared st d h hd
    rcases read_spa_ok_inv h with ⟨rfl, -⟩ | ⟨nm, ts, st0, lg, heq⟩
    · exact absurd hd (by simp [ReaderState.data])
    · have h2 : (spaTail ifg nm ts st0 fname now shared lg).result = .ok st := by
        rw [← heq]; exact h
      obtain ⟨hm, hdt, rest, hsh⟩ := spaTail_ok_data h2 hd
      exact ⟨hm, hdt, rest, by rw [heq]; exact hsh⟩
  · intro file bg revX fname now shared st d h hd
    obtain ⟨res, heq, hres⟩ := read_srs_ok_inv h
    obtain ⟨hm, hdt, ⟨pre, hsh⟩, -⟩ := srsFinish_ok_data hres hd
    exact ⟨hm, hdt, pre, by rw [heq]; exact hsh⟩

/-- Counterexample for C8 as stated: the spg decode of the well-formed
collection (whose data row holds a NaN) leaves the validity mask unset
(`None`) instead of the claimed elementwise is-NaN matrix, and the srs
series decode finalizes with no creation date stamped. -/
theorem C8_counterexample :
    ((read_spg fileSpgGood (some "test.spg") 1700000000 []).result.map
      (fun st => (st.mask, st.data))) =
      .ok (none, some [[1065353216, 2143289344]]) ∧
    isNanMatrix [[1065353216, 2143289344]] = [[false, true]] ∧
    (none : Option (List (List Bool))) ≠ some [[false, true]] ∧
    ((read_srs fileSrsTg false false (some "test.srs") 100 []).result.map
      (fun st => st.date)) = .ok none ∧
    (none : Option Nat) ≠ some 100 :=
  ⟨by decide, by decide, by decide, by decide, by decide⟩

/-- Witness for C8: the amended finalization facts instantiated on the
three concrete decodes. -/
theorem C8_witness :
    (spgGoodState.mask = none ∧ spgGoodState.date = some 1700000000 ∧
      (read_spg fileSpgGood (some "test.spg") 1700000000 []).shared =
        [] ++ [(1700000000, EVal.s ("Imported from spg file " ++
          pathName (resolvedName (some "test.spg")
            (readbtextD fileSpgGood 30 256)) ++ "."))]) ∧
    (spaGoodState.mask = some (isNanMatrix [[1065353216, 1073741824]]) ∧
      spaGoodState.date = some 100 ∧
      ∃ rest, (read_spa fileSpaGood none (some "test.spa") 100 []).shared =
        [] ++ (100, EVal.s "Imported from spa file(s)") :: rest) ∧
    (srsTgState.mask = some (isNanMatrix [[1065353216, 1073741824]]) ∧
      srsTgState.date = none ∧
      ∃ pre, (read_srs fileSrsTg false false (some "test.srs") 100 []).shared =
        [] ++ pre ++ [(100, EVal.s (" imported from srs file " ++
          resolvedName (some "test.srs") "unknown"))]) :=
  ⟨C8_finalization.1 fileSpgGood (some "test.spg") 1700000000 [] spgGoodState
      (by decide),
   C8_finalization.2.1 fileSpaGood none (some "test.spa") 100 [] spaGoodState
      [[1065353216, 1073741824]] (by decide) (by decide),
   C8_finalization.2.2 fileSrsTg false false (some "test.srs") 100 [] srsTgState
      [[1065353216, 1073741824]] (by decide) (by decide)⟩

/-- **C9 (amended).**  Each decoder closes the source exactly when its
code path reaches the `fid.close()` call, and only spa closes before
every possible raise.  spg: the source is closed iff the decode
returns a dataset — every raise happens before the close.  spa: the
close immediately follows the tag scan, so the source is closed iff
the scan phase completed; the null return, the dataset return and the
raises of the assembly tail all happen after the close, while scan
errors leave it open.  srs: the source is closed iff the decode
returns a dataset with data present — every raise and the long-header
background early null `return` skip the close. -/
theorem C9_source_closing :
    (∀ (file : List Nat) (fname : Option String) (now : Nat)
        (shared : List HistEntry),
      (read_spg file fname now shared).closed = true ↔
      ∃ st, (read_spg file fname now shared).result = .ok st) ∧
    (∀ (file : List Nat) (ifg fname : Option String) (now : Nat)
        (shared : List HistEntry),
      (read_spa file ifg fname now shared).closed = true ↔
      ∃ nm ts st0 lg, spaPhase file ifg = (.ok (nm, ts, st0), lg)) ∧
    (∀ (file : List Nat) (bg revX : Bool) (fname : Option String)
        (now : Nat) (shared : List HistEntry),
      (read_srs file bg revX fname now shared).closed = true ↔
      ∃ st d, (read_srs file bg revX fname now shared).result = .ok st ∧
        st.data = some d) := by
  refine ⟨?_, ?_, ?_⟩
  · intro file fname now shared
    simp only [read_spg]
    split
    · simp
    · split
      · simp
      · split
        · simp
        · split
          · simp
          · split
            · simp
            · simp
  · intro file ifg fname now shared
    simp only [read_spa]
    split
    next e lg hphase => simp [hphase]
    next nm ts st0 lg hphase =>
      split
      · exact ⟨fun _ => ⟨nm, ts, st0, lg, hphase⟩, fun _ => rfl⟩
      · exact ⟨fun _ => ⟨nm, ts, st0, lg, hphase⟩,
          fun _ => spaTail_closed ifg nm ts st0 fname now shared lg⟩
  · intro file bg revX fname now shared
    simp only [read_srs]
    split
    · exact srsFinish_closed_iff _ revX fname now shared
    · split
      · exact srsFinish_closed_iff _ revX fname now shared
      · split
        · exact srsFinish_closed_iff _ revX fname now shared
        · simp

/-- Counterexample for C9 as stated: an srs decode of content matching
none of the three signatures raises `UnsupportedFormat` with the
source left open (`closed = false`), so not every raising exit path
releases the source. -/
theorem C9_counterexample :
    read_srs [1, 1, 1] false false none 0 [] =
      ⟨.error (.unsupportedFormat
        ("The reader is only implemented for Rapid Scan, " ++
         "High Speed Real Time, GC or TGA srs files.")), [], false, []⟩ := by
  decide

/-- Witness for C9: both directions exercised at the concrete
successful decodes. -/
theorem C9_witness :
    (read_spg fileSpgGood (some "test.spg") 1700000000 []).closed = true ∧
    (read_spa fileSpaGood none (some "test.spa") 100 []).closed = true ∧
    (read_srs fileSrsTg false false (some "test.srs") 100 []).closed = true :=
  ⟨(C9_source_closing.1 fileSpgGood (some "test.spg") 1700000000 []).mpr
      ⟨spgGoodState, by decide⟩,
   (C9_source_closing.2.1 fileSpaGood none (some "test.spa") 100 []).mpr
      ⟨_, _, _, _, rfl⟩,
   (C9_source_closing.2.2 fileSrsTg false false (some "test.srs") 100 []).mpr
      ⟨srsTgState, [[1065353216, 1073741824]], by decide, by decide⟩⟩

/-- **C6 (amended).**  The srs decoder searches the three fixed
signatures in the file bytes **starting at offset 1**
(`bytestring.find(sub, 1)`), in priority order rapid-scan, high-speed,
then the TGA/GC prefix; the first one found from offset 1 onwards
determines the sub-variant, and when none occurs at any offset ≥ 1 the
decode fails with `UnsupportedFormat` — so a signature occurring only
at offset 0 of the content is missed. -/
theorem C6_signature_search (file : List Nat) (bg revX : Bool)
    (fname : Option String) (now : Nat) (shared : List HistEntry) :
    (findSub file subRs 1 = none → findSub file subHs 1 = none →
      findSub file subTg 1 = none →
      read_srs file bg revX fname now shared =
        ⟨.error (.unsupportedFormat
          ("The reader is only implemented for Rapid Scan, " ++
           "High Speed Real Time, GC or TGA srs files.")), shared, false, []⟩) ∧
    (∀ p, findSub file subRs 1 = some p →
      read_srs file bg revX fname now shared =
        srsFinish (srsRapid file p bg) revX fname now shared) ∧
    (∀ p, findSub file subRs 1 = none → findSub file subHs 1 = some p →
      read_srs file bg revX fname now shared =
        srsFinish (srsHigh file p bg) revX fname now shared) ∧
    (∀ p, findSub file subRs 1 = none → findSub file subHs 1 = none →
      findSub file subTg 1 = some p →
      read_srs file bg revX fname now shared =
        srsFinish (srsTg file p bg) revX fname now shared) := by
  refine ⟨?_, ?_, ?_, ?_⟩
  · intro h1 h2 h3; simp only [read_srs, h1, h2, h3]
  · intro p h1; simp only [read_srs, h1]
  · intro p h1 h2; simp only [read_srs, h1, h2]
  · intro p h1 h2 h3; simp only [read_srs, h1, h2, h3]

/-- Counterexample for C6 as stated: a file whose only signature
occurrence (the TGA/GC prefix) sits at offset 0 of the content.  The
signature does occur in the full content, yet the decode fails with
`UnsupportedFormat` because the search starts at offset 1. -/
theorem C6_counterexample :
    findSub fileSigAtZero subTg 0 = some 0 ∧
    findSub fileSigAtZero subTg 1 = none ∧
    (read_srs fileSigAtZero false false none 0 []).result =
      .error (.unsupportedFormat
        ("The reader is only implemented for Rapid Scan, " ++
         "High Speed Real Time, GC or TGA srs files.")) :=
  ⟨by decide, by decide, by decide⟩

/-- Witness for C6: the TGA/GC dispatch fact instantiated on the
concrete series file, whose first signature occurrence from offset 1
is at byte 184. -/
theorem C6_witness :
    read_srs fileSrsTg false false (some "test.srs") 100 [] =
      srsFinish (srsTg fileSrsTg 184 false) false (some "test.srs") 100 [] :=
  (C6_signature_search fileSrsTg false false (some "test.srs") 100 []).2.2.2
    184 (by decide) (by decide) (by decide)
